import Mathlib

/-!
Verification of the lohono-db-connect MCP database bridge.

This file gives a shallow embedding, in Lean 4, of the parts of the
TypeScript source that the verified properties are about:

* `src/acl.ts` — per-tool access control (`checkToolAccess`,
  `filterToolsByAccess`);
* `src/tools.ts` — the read-only SQL helper (`executeReadOnlyQuery`) and
  the common tool-call gate (`handleToolCall`);
* `src/redash-client.ts` — the Redash id parser (`parseQueryIds`);
* `src/query-analyzer.ts` — the structural-tag and CTE dimensions of
  `analyzeQuery`;
* `src/client/auth.ts` — Google login (`authenticateGoogleUser`);
* `src/client/db.ts` — the conversation store (`deleteSession`);
* `src/client/agent.ts` — transcript translation
  (`dbMessagesToClaudeMessages`) and the bounded agent loop (`chat`).

External collaborators (the PostgreSQL engine, the MongoDB driver, the
LLM API, the Redash HTTP API) are modelled explicitly: stores are passed
as values, effectful calls are oracles supplied in an environment, and
JavaScript numbers that only ever hold integer ids are modelled as `Int`.
-/

namespace LohonoDb

/-! ## JSON values

A small model of the JavaScript values that flow through tool arguments
(`Record<string, unknown>`) and results. -/

inductive Json where
  | null : Json
  | bool : Bool → Json
  | num : Int → Json
  | str : String → Json
  | arr : List Json → Json
  | obj : List (String × Json) → Json
deriving Repr

/-! ## Character-level string helpers

JavaScript string primitives (`trim`, `toLowerCase`, `split`) are
modelled over `List Char`, the kernel-reducible carrier of `String`. -/

/-- `String.prototype.trim`: drop whitespace from both ends. -/
def trimChars (cs : List Char) : List Char :=
  ((cs.dropWhile Char.isWhitespace).reverse.dropWhile Char.isWhitespace).reverse

/-- `String.prototype.toLowerCase` (ASCII identifiers and emails only). -/
def toLowerStr (s : String) : String := String.mk (s.data.map Char.toLower)

/-! ## ACL module (`src/acl.ts`) -/

/-- `AclConfig` from `src/acl.ts`.  `default_policy` is the raw string from
the YAML file (`"open"` or `"deny"`); `tool_acls` is the object mapping a
tool name to its required ACL tags, modelled as an association list with
unique keys (JavaScript object semantics). -/
structure AclConfig where
  default_policy : String
  superuser_acls : List String
  public_tools : List String
  tool_acls : List (String × List String)
deriving Repr, DecidableEq

/-- One row of the external `public.staffs` table, as selected by
`resolveUserAcls`: `acl_array` (with SQL `NULL` already collapsed to `[]`,
per `row.acl_array || []`) and `active` (per `row.active ?? false`). -/
structure StaffRec where
  acls : List String
  active : Bool
deriving Repr, DecidableEq

/-- `AclCheckResult` from `src/acl.ts`. -/
structure AclCheckResult where
  allowed : Bool
  reason : String
  user_email : Option String := none
  user_acls : Option (List String) := none
deriving Repr, DecidableEq

/-- The staff directory: the `public.staffs` table as a lookup keyed by
the normalized (lower-cased, trimmed) email, exactly the key used by the
source's `WHERE LOWER(email) = $1` query. -/
def StaffDir : Type := String → Option StaffRec

/-- Email normalization from `resolveUserAcls`:
`email.toLowerCase().trim()`. -/
def normalizeEmail (e : String) : String :=
  String.mk (trimChars (toLowerStr e).data)

/-- `resolveUserAcls` from `src/acl.ts`, with the DB read modelled by the
directory lookup (the 5-minute cache returns the same value as the lookup
within its TTL, so it is transparent here). -/
def resolveUserAcls (dir : StaffDir) (email : String) : Option StaffRec :=
  dir (normalizeEmail email)

/-- JavaScript truthiness of the `userEmail : string | undefined`
argument: `!userEmail` is true when the email is absent or empty. -/
def emailProvided : Option String → Bool
  | none => false
  | some e => !(e == "")

/-- The denial message of step 2 of `checkToolAccess`. -/
def authRequiredReason : String :=
  "Authentication required. Provide user email via _meta.user_email in tool call params, X-User-Email header, or MCP_USER_EMAIL env var."

/-- `checkToolAccess` from `src/acl.ts` (lines 148–239), translated
branch for branch. -/
def checkToolAccess (cfg : AclConfig) (dir : StaffDir) (toolName : String)
    (userEmail : Option String) : AclCheckResult :=
  if cfg.public_tools.contains toolName then
    { allowed := true, reason := "Public tool", user_email := userEmail }
  else if !emailProvided userEmail then
    { allowed := false, reason := authRequiredReason }
  else
    let email := userEmail.getD ""
    match resolveUserAcls dir email with
    | none =>
        { allowed := false, reason := "User not found: " ++ email,
          user_email := some email }
    | some user =>
        if !user.active then
          { allowed := false,
            reason := "User account is deactivated: " ++ email,
            user_email := some email, user_acls := some user.acls }
        else if user.acls.any (fun a => cfg.superuser_acls.contains a) then
          { allowed := true, reason := "Superuser access",
            user_email := some email, user_acls := some user.acls }
        else
          match cfg.tool_acls.lookup toolName with
          | none =>
              if cfg.default_policy == "open" then
                { allowed := true,
                  reason := "Default policy: open (tool not in ACL config)",
                  user_email := some email, user_acls := some user.acls }
              else
                { allowed := false,
                  reason := "Access denied: tool \"" ++ toolName ++
                    "\" is not configured in ACL and default policy is deny",
                  user_email := some email, user_acls := some user.acls }
          | some requiredAcls =>
              if requiredAcls.any (fun r => user.acls.contains r) then
                { allowed := true, reason := "ACL matched",
                  user_email := some email, user_acls := some user.acls }
              else
                { allowed := false,
                  reason := "Access denied: tool \"" ++ toolName ++
                    "\" requires one of [" ++ String.intercalate ", " requiredAcls ++
                    "]. User has: [" ++ String.intercalate ", " user.acls ++ "]",
                  user_email := some email, user_acls := some user.acls }

/-- A tool descriptor as seen by `filterToolsByAccess`
(`{ name: string; [key: string]: unknown }` — only `name` is read). -/
structure ToolDef where
  name : String
deriving Repr, DecidableEq

/-- `filterToolsByAccess` from `src/acl.ts` (lines 247–279). -/
def filterToolsByAccess (cfg : AclConfig) (dir : StaffDir)
    (tools : List ToolDef) (userEmail : Option String) : List ToolDef :=
  if !emailProvided userEmail then
    tools.filter (fun t => cfg.public_tools.contains t.name)
  else
    match resolveUserAcls dir (userEmail.getD "") with
    | none => tools.filter (fun t => cfg.public_tools.contains t.name)
    | some user =>
        if !user.active then
          tools.filter (fun t => cfg.public_tools.contains t.name)
        else if user.acls.any (fun a => cfg.superuser_acls.contains a) then
          tools
        else
          tools.filter (fun t =>
            if cfg.public_tools.contains t.name then true
            else
              match cfg.tool_acls.lookup t.name with
              | none => cfg.default_policy == "open"
              | some requiredAcls => requiredAcls.any (fun r => user.acls.contains r))

/-! ### C2: `checkToolAccess` as an ordered rule list

`checkToolAccessSpec` restates the access check the way the spec
describes it: an ordered list of rules, the first applicable one giving
the verdict.  `checkToolAccess_eq_spec` proves the source function
returns exactly the first applicable verdict. -/

/-- Return the first applicable verdict of an ordered rule list. -/
def firstVerdict : List (Option AclCheckResult) → AclCheckResult
  | [] => { allowed := false, reason := "" }
  | some r :: _ => r
  | none :: rest => firstVerdict rest

/-- The access-check algorithm as the spec words it: seven rules tried in
order, first applicable verdict returned. -/
def checkToolAccessSpec (cfg : AclConfig) (dir : StaffDir) (toolName : String)
    (userEmail : Option String) : AclCheckResult :=
  let emailOk := emailProvided userEmail
  let email := userEmail.getD ""
  let user? := if emailOk then resolveUserAcls dir email else none
  firstVerdict [
    -- (1) tool in the public list → allow
    (if cfg.public_tools.contains toolName then
      some { allowed := true, reason := "Public tool", user_email := userEmail }
     else none),
    -- (2) no email → deny requiring authentication
    (if !emailOk then
      some { allowed := false, reason := authRequiredReason }
     else none),
    -- (3) staff record not found → deny
    (match user? with
     | none =>
        some { allowed := false, reason := "User not found: " ++ email,
               user_email := some email }
     | some _ => none),
    -- (4) staff inactive → deny
    (match user? with
     | some user =>
        if !user.active then
          some { allowed := false,
                 reason := "User account is deactivated: " ++ email,
                 user_email := some email, user_acls := some user.acls }
        else none
     | none => none),
    -- (5) any user ACL in the superuser set → allow
    (match user? with
     | some user =>
        if user.acls.any (fun a => cfg.superuser_acls.contains a) then
          some { allowed := true, reason := "Superuser access",
                 user_email := some email, user_acls := some user.acls }
        else none
     | none => none),
    -- (6) tool listed in the ACL map → allow iff the user's ACLs intersect
    --     the required list, else deny naming required vs. held ACLs
    (match user?, cfg.tool_acls.lookup toolName with
     | some user, some requiredAcls =>
        some (if requiredAcls.any (fun r => user.acls.contains r) then
          { allowed := true, reason := "ACL matched",
            user_email := some email, user_acls := some user.acls }
        else
          { allowed := false,
            reason := "Access denied: tool \"" ++ toolName ++
              "\" requires one of [" ++ String.intercalate ", " requiredAcls ++
              "]. User has: [" ++ String.intercalate ", " user.acls ++ "]",
            user_email := some email, user_acls := some user.acls })
     | _, _ => none),
    -- (7) tool not listed → allow iff the default policy is open
    (match user?, cfg.tool_acls.lookup toolName with
     | some user, none =>
        some (if cfg.default_policy == "open" then
          { allowed := true,
            reason := "Default policy: open (tool not in ACL config)",
            user_email := some email, user_acls := some user.acls }
        else
          { allowed := false,
            reason := "Access denied: tool \"" ++ toolName ++
              "\" is not configured in ACL and default policy is deny",
            user_email := some email, user_acls := some user.acls })
     | _, _ => none)]

/-- C2: `checkToolAccess` evaluates its rules in exactly the order the
spec gives — public tool, missing email, unknown staff, inactive staff,
superuser, per-tool ACL intersection, default policy — and returns the
first applicable verdict (including the enumerating denial reason of
rule 6). -/
theorem checkToolAccess_first_applicable_rule (cfg : AclConfig) (dir : StaffDir)
    (toolName : String) (userEmail : Option String) :
    checkToolAccess cfg dir toolName userEmail =
      checkToolAccessSpec cfg dir toolName userEmail := by
  unfold checkToolAccess checkToolAccessSpec
  by_cases hpub : toolName ∈ cfg.public_tools
  · simp [hpub, firstVerdict]
  · cases hep : emailProvided userEmail
    · simp [hpub, hep, firstVerdict]
    · cases hres : resolveUserAcls dir (userEmail.getD "") with
      | none => simp [hpub, hep, hres, firstVerdict]
      | some user =>
        cases hact : user.active
        · simp [hpub, hep, hres, hact, firstVerdict]
        · cases hsup : user.acls.any (fun a => cfg.superuser_acls.contains a)
          · have hsup' : ¬∃ x ∈ user.acls, x ∈ cfg.superuser_acls := by
              simpa using hsup
            cases hlk : cfg.tool_acls.lookup toolName <;>
              simp [hpub, hep, hres, hact, hsup', hlk, firstVerdict]
          · have hsup' : ∃ x ∈ user.acls, x ∈ cfg.superuser_acls := by
              simpa using hsup
            simp [hpub, hep, hres, hact, hsup', firstVerdict]

/-! ### C1: `filterToolsByAccess` versus `checkToolAccess` -/

/-- Names of tools kept by a name-based filter. -/
theorem mem_map_name_filter (tools : List ToolDef) (f : String → Bool) (n : String) :
    (n ∈ (tools.filter (fun t => f t.name)).map ToolDef.name) ↔
      (n ∈ tools.map ToolDef.name ∧ f n = true) := by
  simp only [List.mem_map, List.mem_filter]
  constructor
  · rintro ⟨t, ⟨ht, hf⟩, rfl⟩
    exact ⟨⟨t, ht, rfl⟩, hf⟩
  · rintro ⟨⟨t, ht, rfl⟩, hf⟩
    exact ⟨t, ⟨ht, hf⟩, rfl⟩

/-- Pointwise form of C1: a tool descriptor survives
`filterToolsByAccess` iff it is in the catalog and `checkToolAccess`
allows its name. -/
theorem mem_filterTools_iff (cfg : AclConfig) (dir : StaffDir)
    (tools : List ToolDef) (userEmail : Option String) (t : ToolDef) :
    t ∈ filterToolsByAccess cfg dir tools userEmail ↔
      (t ∈ tools ∧ (checkToolAccess cfg dir t.name userEmail).allowed = true) := by
  unfold filterToolsByAccess checkToolAccess
  by_cases hpub : t.name ∈ cfg.public_tools
  · cases hep : emailProvided userEmail
    · simp [hep, hpub, List.mem_filter]
    · cases hres : resolveUserAcls dir (userEmail.getD "") with
      | none => simp [hep, hres, hpub, List.mem_filter]
      | some user =>
        cases hact : user.active
        · simp [hep, hres, hact, hpub, List.mem_filter]
        · by_cases hsup : ∃ x ∈ user.acls, x ∈ cfg.superuser_acls
          · simp [hep, hres, hact, hsup, hpub]
          · simp [hep, hres, hact, hsup, hpub, List.mem_filter]
  · cases hep : emailProvided userEmail
    · simp [hep, hpub, List.mem_filter]
    · cases hres : resolveUserAcls dir (userEmail.getD "") with
      | none => simp [hep, hres, hpub, List.mem_filter]
      | some user =>
        cases hact : user.active
        · simp [hep, hres, hact, hpub, List.mem_filter]
        · by_cases hsup : ∃ x ∈ user.acls, x ∈ cfg.superuser_acls
          · simp [hep, hres, hact, hsup, hpub]
          · cases hlk : cfg.tool_acls.lookup t.name with
            | none =>
                by_cases hop : cfg.default_policy = "open" <;>
                  simp [hep, hres, hact, hsup, hpub, hlk, hop, List.mem_filter]
            | some requiredAcls =>
                by_cases hint : ∃ x ∈ requiredAcls, x ∈ user.acls <;>
                  simp [hep, hres, hact, hsup, hpub, hlk, hint, List.mem_filter]

/-- C1 (amended): for every ACL configuration, staff directory, tool
catalog and optional caller email, a tool name **that occurs in the
catalog** appears in the list returned by `filterToolsByAccess` iff
`checkToolAccess` for that name and email returns `allowed = true`. -/
theorem filterTools_mem_iff_checkToolAccess (cfg : AclConfig) (dir : StaffDir)
    (tools : List ToolDef) (userEmail : Option String) (toolName : String)
    (hmem : toolName ∈ tools.map ToolDef.name) :
    (toolName ∈ (filterToolsByAccess cfg dir tools userEmail).map ToolDef.name) ↔
      (checkToolAccess cfg dir toolName userEmail).allowed = true := by
  constructor
  · intro h
    rw [List.mem_map] at h
    obtain ⟨t, htf, rfl⟩ := h
    exact ((mem_filterTools_iff cfg dir tools userEmail t).1 htf).2
  · intro hallow
    rw [List.mem_map] at hmem
    obtain ⟨t, ht, rfl⟩ := hmem
    exact List.mem_map.mpr
      ⟨t, (mem_filterTools_iff cfg dir tools userEmail t).2 ⟨ht, hallow⟩, rfl⟩

/-- A configuration with an open default policy, no public tools and no
per-tool rules, and a directory holding one active staff member. -/
def c1Cfg : AclConfig :=
  { default_policy := "open", superuser_acls := [], public_tools := [],
    tool_acls := [] }

/-- Staff directory with a single active record for `u@x.com`. -/
def c1Dir : StaffDir :=
  fun e => if e = "u@x.com" then some { acls := [], active := true } else none

/-- C1 counterexample: with an open default policy, `checkToolAccess`
allows the name `query` for an active staff member, yet an empty catalog
filters to the empty list — so the unrestricted for-all-names biconditional
of the claim is false. -/
theorem filterTools_checkToolAccess_iff_fails_off_catalog :
    ¬(("query" ∈ (filterToolsByAccess c1Cfg c1Dir [] (some "u@x.com")).map ToolDef.name) ↔
      (checkToolAccess c1Cfg c1Dir "query" (some "u@x.com")).allowed = true) := by
  decide

/-- Witness for the amended C1 theorem at a concrete catalog, config,
directory and email. -/
theorem filterTools_mem_iff_checkToolAccess_witness :
    ("query" ∈ ([({ name := "query" } : ToolDef)].map ToolDef.name)) ∧
      (("query" ∈ (filterToolsByAccess c1Cfg c1Dir [{ name := "query" }]
          (some "u@x.com")).map ToolDef.name) ↔
        (checkToolAccess c1Cfg c1Dir "query" (some "u@x.com")).allowed = true) :=
  ⟨by decide,
   filterTools_mem_iff_checkToolAccess c1Cfg c1Dir [{ name := "query" }]
     (some "u@x.com") "query" (by decide)⟩

/-! ## Redash id parser (`src/redash-client.ts`)

`parseQueryIds` splits its input on `/[\s,]+/`, trims, drops empty
fragments and parses each token with `parseInt(s, 10)`, throwing on
`NaN`.  JavaScript numbers (IEEE-754 binary64 doubles) holding the
parsed integer ids are modelled as the exact mathematical integer of
the double: `parseInt` rounds the digits' value to the nearest
representable double (`roundDouble`), and `String(n)`/`join` renders a
double by the ECMAScript shortest-round-trip algorithm, switching to
exponential notation from `10^21` upward (`jsNatToChars`).  These two
number conversions are ECMAScript runtime semantics, external to this
repository, modelled from the language specification
(`Number::toString`, `parseInt`); the model covers the full finite
integer range the theorems quantify over (overflow to `Infinity`,
beyond `2^1024`, is outside every statement's hypotheses). -/

/-- A separator of the split regex `/[\s,]+/`. -/
def isSepChar (c : Char) : Bool := c == ',' || c.isWhitespace

/-- `input.split(/[\s,]+/)` restricted to its non-empty fragments: the
maximal runs of non-separator characters, left to right.  (The empty
fragments JavaScript's `split` produces at the ends are removed by the
source's own `.filter(s => s.length > 0)` immediately afterwards.) -/
def splitSepsAux : List Char → List Char → List (List Char)
  | [], acc => if acc.isEmpty then [] else [acc.reverse]
  | c :: cs, acc =>
      if isSepChar c then
        if acc.isEmpty then splitSepsAux cs []
        else acc.reverse :: splitSepsAux cs []
      else splitSepsAux cs (c :: acc)

/-- Value of a digit run under `parseInt` accumulation. -/
def charsVal (cs : List Char) : Nat :=
  cs.foldl (fun a c => 10 * a + (c.toNat - 48)) 0

/-- The digit-prefix step of `parseInt(s, 10)`: longest prefix of decimal
digits, `none` when there is none. -/
def digitsVal (cs : List Char) : Option Nat :=
  let ds := cs.takeWhile Char.isDigit
  if ds.isEmpty then none else some (charsVal ds)

/-- The number of halvings that bring `n` below `2^53` (the exponent of
the double's scale): for `n ≥ 2^53` the representable binary64 integers
around `n` are the multiples of `2^(expFor n)`.  Fuel-based so the
kernel can evaluate it; `1100` halvings cover the whole finite double
range (`n < 2^1100`). -/
def expFor : Nat → Nat → Nat
  | 0, _ => 0
  | fuel + 1, n => if n < 2 ^ 53 then 0 else expFor fuel (n / 2) + 1

/-- Round a non-negative integer to the nearest binary64 double
(round half to even), as a mathematical integer: integers below `2^53`
are exactly representable; above, the two neighbouring multiples of
`2^(expFor n)` compete, ties going to the even mantissa.  Modelled from
IEEE-754 / the ECMAScript number type, which is external to this
repository. -/
def roundDouble (n : Nat) : Nat :=
  if n < 2 ^ 53 then n
  else
    let k := expFor 1100 n
    let q := n / 2 ^ k
    let r := n % 2 ^ k
    let half := 2 ^ (k - 1)
    (if half < r ∨ (r = half ∧ q % 2 = 1) then q + 1 else q) * 2 ^ k

/-- `parseInt(s, 10)`: skip leading whitespace, optional sign, then the
longest decimal-digit prefix, the digits' value rounded to the nearest
double; `NaN` (here `none`) when no digit follows. -/
def jsParseIntChars (cs : List Char) : Option Int :=
  match cs.dropWhile Char.isWhitespace with
  | [] => none
  | c :: rest =>
      if c == '-' then
        (digitsVal rest).map (fun m => -(Int.ofNat (roundDouble m)))
      else if c == '+' then
        (digitsVal rest).map (fun m => Int.ofNat (roundDouble m))
      else (digitsVal (c :: rest)).map (fun m => Int.ofNat (roundDouble m))

/-- `Array.prototype.map` over the per-token parser of `parseQueryIds`:
the first `NaN` throws `Invalid query ID: "<token>"`. -/
def parseTokens : List (List Char) → Except String (List Int)
  | [] => .ok []
  | t :: ts =>
      match jsParseIntChars t with
      | some n => (parseTokens ts).map (fun ns => n :: ns)
      | none => .error ("Invalid query ID: \"" ++ String.mk t ++ "\"")

/-- `parseQueryIds` from `src/redash-client.ts` (lines 109–119). -/
def parseQueryIds (input : String) : Except String (List Int) :=
  parseTokens
    (((splitSepsAux input.data []).map trimChars).filter (fun t => !t.isEmpty))

/-- Decimal rendering of a natural number, most significant digit first
(the integer case of JavaScript's number-to-string conversion).  The
fuel argument makes the recursion structural; `natToChars` supplies
`n` itself, which is enough fuel. -/
def natToCharsAux : Nat → Nat → List Char
  | 0, _ => []
  | fuel + 1, n =>
      if n = 0 then []
      else natToCharsAux fuel (n / 10) ++ [Char.ofNat (48 + n % 10)]

/-- Decimal rendering of a natural number (`String(n)` for `n ≥ 0`). -/
def natToChars (n : Nat) : List Char :=
  if n = 0 then ['0'] else natToCharsAux n n

/-- Drop the trailing decimal zeros of `n` (fuel-based; `n` is enough
fuel since each step divides by 10). -/
def stripZerosAux : Nat → Nat → Nat
  | 0, n => n
  | fuel + 1, n => if n ≠ 0 ∧ n % 10 = 0 then stripZerosAux fuel (n / 10) else n

def stripZeros (n : Nat) : Nat := stripZerosAux n n

/-- Number of decimal digits of `n`. -/
def digitCount (n : Nat) : Nat := (natToChars n).length

/-- One step of the ECMAScript `Number::toString` digit search, at scale
`p = 10^(digits − k)`: of the two multiples of `p` nearest to the double
`d` — `⌊d/p⌋·p` and `(⌊d/p⌋+1)·p` — keep those that read back (round) to
`d`; among them the spec chooses the value closest to `d`, ties to the
even digit string. -/
def pickS (d p : Nat) : Option Nat :=
  let q := d / p
  if roundDouble (q * p) = d then
    if roundDouble ((q + 1) * p) = d then
      if d - q * p < (q + 1) * p - d then some q
      else if (q + 1) * p - d < d - q * p then some (q + 1)
      else if q % 2 = 0 then some q else some (q + 1)
    else some q
  else if roundDouble ((q + 1) * p) = d then some (q + 1)
  else none

/-- Search the significant-digit counts `k` in ascending order (the spec
wants `k` as small as possible); the result is the value denoted by the
chosen digit string.  For a representable `d` the last step (`k` = all
digits, scale 1) always succeeds, so the `[]` fallback is never taken
on the values the theorems quantify over. -/
def shortestVFrom (d : Nat) : List Nat → Nat
  | [] => d
  | k :: ks =>
      match pickS d (10 ^ (digitCount d - k)) with
      | some s => s * 10 ^ (digitCount d - k)
      | none => shortestVFrom d ks

/-- The value denoted by the shortest decimal digit string that rounds
back to the double `d`. -/
def shortestV (d : Nat) : Nat :=
  shortestVFrom d ((List.range (digitCount d)).map (fun i => i + 1))

/-- `String(d)` for a non-negative integer-valued double `d`, after
ECMAScript `Number::toString` (radix 10): print the shortest decimal
that reads back as `d`; when the value has at most 21 digits it is
printed as a plain integer, from `10^21` upward in exponential
notation (`1e+21`, `1.5e+22`, …). -/
def jsNatToChars (d : Nat) : List Char :=
  if shortestV d < 10 ^ 21 then natToChars (shortestV d)
  else
    match natToChars (stripZeros (shortestV d)) with
    | [] => ['0']
    | c :: rest =>
        c :: ((if rest.isEmpty then [] else '.' :: rest) ++
          'e' :: '+' :: natToChars ((natToChars (shortestV d)).length - 1))

/-- `String(n)` for an integer-valued JavaScript number. -/
def intToString (n : Int) : String :=
  if n < 0 then String.mk ('-' :: jsNatToChars n.natAbs)
  else String.mk (jsNatToChars n.natAbs)

/-- `ids.join(",")`: concatenation with a single comma between
fragments. -/
def joinCommaChars : List (List Char) → List Char
  | [] => []
  | [x] => x
  | x :: xs => x ++ ',' :: joinCommaChars xs

/-- The comma-join of a list of integer ids, as the spec's idempotence
law words it. -/
def commaJoinInts (ns : List Int) : String :=
  String.mk (joinCommaChars (ns.map (fun n => (intToString n).data)))

/-- Facts about a decimal digit character `Char.ofNat (48 + d)`. -/
theorem digitChar_facts : ∀ d, d < 10 →
    ((Char.ofNat (48 + d)).isDigit = true ∧
     (Char.ofNat (48 + d)).toNat - 48 = d ∧
     isSepChar (Char.ofNat (48 + d)) = false ∧
     ((Char.ofNat (48 + d)) == '-') = false ∧
     ((Char.ofNat (48 + d)) == '+') = false ∧
     (Char.ofNat (48 + d)).isWhitespace = false) := by decide

theorem natToCharsAux_zero (fuel : Nat) : natToCharsAux fuel 0 = [] := by
  cases fuel <;> simp [natToCharsAux]

/-- Every character of `natToCharsAux` is a decimal digit character. -/
theorem natToCharsAux_mem : ∀ fuel n c, c ∈ natToCharsAux fuel n →
    ∃ d, d < 10 ∧ c = Char.ofNat (48 + d) := by
  intro fuel
  induction fuel with
  | zero => intro n c hc; simp [natToCharsAux] at hc
  | succ f ih =>
      intro n c hc
      by_cases hn : n = 0
      · simp [natToCharsAux, hn] at hc
      · simp only [natToCharsAux, if_neg hn, List.mem_append,
          List.mem_singleton] at hc
        rcases hc with hc | hc
        · exact ih _ c hc
        · exact ⟨n % 10, Nat.mod_lt _ (by norm_num), hc⟩

theorem natToChars_mem (n : Nat) : ∀ c ∈ natToChars n,
    ∃ d, d < 10 ∧ c = Char.ofNat (48 + d) := by
  intro c hc
  by_cases hn : n = 0
  · simp [natToChars, hn] at hc
    exact ⟨0, by norm_num, by simpa using hc⟩
  · exact natToCharsAux_mem n n c (by simpa [natToChars, hn] using hc)

theorem charsVal_append_digit (l : List Char) (c : Char) :
    charsVal (l ++ [c]) = 10 * charsVal l + (c.toNat - 48) := by
  simp [charsVal, List.foldl_append]

theorem charsVal_natToCharsAux : ∀ fuel n, n ≤ fuel →
    charsVal (natToCharsAux fuel n) = n := by
  intro fuel
  induction fuel with
  | zero =>
      intro n hn
      interval_cases n
      simp [natToCharsAux, charsVal]
  | succ f ih =>
      intro n hn
      by_cases h0 : n = 0
      · simp [natToCharsAux, h0, charsVal]
      · have hlt : n / 10 ≤ f := by
          have : n / 10 < n := Nat.div_lt_self (Nat.pos_of_ne_zero h0) (by norm_num)
          omega
        have hmod : n % 10 < 10 := Nat.mod_lt _ (by norm_num)
        calc charsVal (natToCharsAux (f + 1) n)
            = charsVal (natToCharsAux f (n / 10) ++ [Char.ofNat (48 + n % 10)]) := by
              simp [natToCharsAux, h0]
          _ = 10 * charsVal (natToCharsAux f (n / 10)) +
                ((Char.ofNat (48 + n % 10)).toNat - 48) := charsVal_append_digit _ _
          _ = 10 * (n / 10) + (n % 10) := by
              rw [ih _ hlt, (digitChar_facts _ hmod).2.1]
          _ = n := by omega

theorem charsVal_natToChars (n : Nat) : charsVal (natToChars n) = n := by
  by_cases hn : n = 0
  · simp [natToChars, hn, charsVal]
  · simpa [natToChars, hn] using charsVal_natToCharsAux n n le_rfl

theorem natToChars_ne_nil (n : Nat) : natToChars n ≠ [] := by
  by_cases hn : n = 0
  · simp [natToChars, hn]
  · simp only [natToChars, if_neg hn]
    cases hf : n with
    | zero => exact absurd hf hn
    | succ m => simp [natToCharsAux, hn]

/-- An all-digit run is its own `takeWhile Char.isDigit`. -/
theorem takeWhile_digits (l : List Char)
    (h : ∀ c ∈ l, Char.isDigit c = true) :
    l.takeWhile Char.isDigit = l := by
  induction l with
  | nil => rfl
  | cons c cs ih =>
      rw [List.takeWhile_cons, if_pos (by simpa using h c (by simp))]
      rw [ih (fun x hx => h x (by simp [hx]))]

theorem digitsVal_natToChars (n : Nat) :
    digitsVal (natToChars n) = some n := by
  have hdig : ∀ c ∈ natToChars n, Char.isDigit c = true := by
    intro c hc
    obtain ⟨d, hd, rfl⟩ := natToChars_mem n c hc
    exact (digitChar_facts d hd).1
  unfold digitsVal
  rw [takeWhile_digits _ hdig]
  simp [natToChars_ne_nil n, charsVal_natToChars n, List.isEmpty_iff]

theorem roundDouble_small (n : Nat) (h : n < 2 ^ 53) : roundDouble n = n := by
  unfold roundDouble
  rw [if_pos h]

theorem expFor_lower : ∀ fuel n, 2 ^ 53 ≤ n → 2 ^ 52 * 2 ^ expFor fuel n ≤ n := by
  intro fuel
  induction fuel with
  | zero =>
      intro n h
      rw [show expFor 0 n = 0 from rfl]
      calc 2 ^ 52 * 2 ^ 0 = 2 ^ 52 := by norm_num
        _ ≤ 2 ^ 53 := by norm_num
        _ ≤ n := h
  | succ f ih =>
      intro n h
      rw [show expFor (f + 1) n
          = if n < 2 ^ 53 then 0 else expFor f (n / 2) + 1 from rfl,
        if_neg (Nat.not_lt.mpr h)]
      by_cases h2 : 2 ^ 53 ≤ n / 2
      · have hih := ih (n / 2) h2
        have hdiv : n / 2 * 2 ≤ n := Nat.div_mul_le_self n 2
        calc 2 ^ 52 * 2 ^ (expFor f (n / 2) + 1)
            = 2 ^ 52 * 2 ^ expFor f (n / 2) * 2 := by ring
          _ ≤ n / 2 * 2 := by omega
          _ ≤ n := hdiv
      · have hz : expFor f (n / 2) = 0 := by
          cases f with
          | zero => rfl
          | succ f2 =>
              rw [show expFor (f2 + 1) (n / 2)
                  = if n / 2 < 2 ^ 53 then 0 else expFor f2 (n / 2 / 2) + 1 from rfl,
                if_pos (Nat.lt_of_not_le h2)]
        rw [hz]
        calc 2 ^ 52 * 2 ^ (0 + 1) = 2 ^ 53 := by norm_num
          _ ≤ n := h

theorem roundDouble_big (v : Nat) (h : 2 ^ 53 ≤ v) : 2 ^ 53 ≤ roundDouble v := by
  have hk : 1 ≤ expFor 1100 v := by
    rw [show expFor 1100 v
        = if v < 2 ^ 53 then 0 else expFor 1099 (v / 2) + 1 from rfl,
      if_neg (Nat.not_lt.mpr h)]
    omega
  have hq : 2 ^ 52 ≤ v / 2 ^ expFor 1100 v := by
    rw [Nat.le_div_iff_mul_le (by positivity)]
    exact expFor_lower 1100 v h
  unfold roundDouble
  rw [if_neg (Nat.not_lt.mpr h)]
  dsimp only
  have hbase : (2 : Nat) ^ 53 ≤ v / 2 ^ expFor 1100 v * 2 ^ expFor 1100 v :=
    calc (2 : Nat) ^ 53 = 2 ^ 52 * 2 ^ 1 := by norm_num
      _ ≤ 2 ^ 52 * 2 ^ expFor 1100 v :=
          Nat.mul_le_mul_left _ (Nat.pow_le_pow_right (by norm_num) hk)
      _ ≤ v / 2 ^ expFor 1100 v * 2 ^ expFor 1100 v :=
          Nat.mul_le_mul_right _ hq
  split_ifs with hc
  · calc (2 : Nat) ^ 53
        ≤ v / 2 ^ expFor 1100 v * 2 ^ expFor 1100 v := hbase
      _ ≤ (v / 2 ^ expFor 1100 v + 1) * 2 ^ expFor 1100 v :=
          Nat.mul_le_mul_right _ (Nat.le_succ _)
  · exact hbase

theorem roundDouble_lt_safe (v d : Nat) (h : roundDouble v = d)
    (hd : d < 2 ^ 53) : v < 2 ^ 53 := by
  by_contra hv
  have := roundDouble_big v (Nat.le_of_not_lt hv)
  omega

theorem pickS_sound (d p s : Nat) (h : pickS d p = some s) :
    roundDouble (s * p) = d := by
  simp only [pickS] at h
  split_ifs at h <;>
    first
      | exact Option.noConfusion h
      | (injection h with hs; subst hs; assumption)

theorem shortestVFrom_rounds (d : Nat) (hd : roundDouble d = d) :
    ∀ ks, roundDouble (shortestVFrom d ks) = d := by
  intro ks
  induction ks with
  | nil => exact hd
  | cons k ks ih =>
      rw [show shortestVFrom d (k :: ks)
          = (match pickS d (10 ^ (digitCount d - k)) with
             | some s => s * 10 ^ (digitCount d - k)
             | none => shortestVFrom d ks) from rfl]
      cases hp : pickS d (10 ^ (digitCount d - k)) with
      | none => exact ih
      | some s => exact pickS_sound d _ s hp

theorem shortestV_rounds (d : Nat) (hd : roundDouble d = d) :
    roundDouble (shortestV d) = d :=
  shortestVFrom_rounds d hd _

/-- For a safe integer `d < 2^53` the shortest-round-trip rendering is a
plain decimal digit string whose value reads back as `d`. -/
theorem jsNatToChars_safe (d : Nat) (hd : d < 2 ^ 53) :
    jsNatToChars d = natToChars (shortestV d) ∧
      roundDouble (shortestV d) = d := by
  have h1 : roundDouble (shortestV d) = d :=
    shortestV_rounds d (roundDouble_small d hd)
  have h2 : shortestV d < 2 ^ 53 := roundDouble_lt_safe _ _ h1 hd
  refine ⟨?_, h1⟩
  unfold jsNatToChars
  rw [if_pos (lt_trans h2 (by norm_num))]

/-- `parseInt(String(n), 10) = n` for an id in the double-exact safe
integer range `|n| < 2^53`. -/
theorem jsParseInt_intToString (n : Int) (hn : n.natAbs < 2 ^ 53) :
    jsParseIntChars (intToString n).data = some n := by
  obtain ⟨hrend, hround⟩ := jsNatToChars_safe n.natAbs hn
  by_cases hneg : n < 0
  · simp only [intToString, if_pos hneg]
    rw [hrend]
    unfold jsParseIntChars
    rw [List.dropWhile_cons]
    simp [show Char.isWhitespace '-' = false from by decide, digitsVal_natToChars]
    rw [hround]
    omega
  · simp only [intToString, if_neg hneg]
    rw [hrend]
    obtain ⟨c, cs, hcons⟩ :=
      List.exists_cons_of_ne_nil (natToChars_ne_nil (shortestV n.natAbs))
    have hcmem : c ∈ natToChars (shortestV n.natAbs) := by rw [hcons]; simp
    obtain ⟨d, hd, hcd⟩ := natToChars_mem _ c hcmem
    have hfacts := digitChar_facts d hd
    have hne1 : (c == '-') = false := by rw [hcd]; exact hfacts.2.2.2.1
    have hne2 : (c == '+') = false := by rw [hcd]; exact hfacts.2.2.2.2.1
    have hws : Char.isWhitespace c = false := by rw [hcd]; exact hfacts.2.2.2.2.2
    unfold jsParseIntChars
    rw [hcons, List.dropWhile_cons]
    simp only [hws, Bool.false_eq_true, if_false, hne1, hne2]
    rw [← hcons, digitsVal_natToChars]
    simp
    rw [hround]
    omega

theorem dropWhile_ws_eq_self (l : List Char)
    (h : ∀ c ∈ l, Char.isWhitespace c = false) :
    l.dropWhile Char.isWhitespace = l := by
  cases l with
  | nil => rfl
  | cons c cs => rw [List.dropWhile_cons, if_neg (by simp [h c (by simp)])]

theorem trimChars_sepFree (t : List Char)
    (h : ∀ c ∈ t, isSepChar c = false) : trimChars t = t := by
  have hws : ∀ c ∈ t, Char.isWhitespace c = false := by
    intro c hc
    have := h c hc
    simp [isSepChar] at this
    exact this.2
  unfold trimChars
  rw [dropWhile_ws_eq_self t hws,
    dropWhile_ws_eq_self t.reverse (fun c hc => hws c (List.mem_reverse.mp hc)),
    List.reverse_reverse]

theorem splitSepsAux_token (t : List Char)
    (h : ∀ c ∈ t, isSepChar c = false) :
    ∀ rest acc, splitSepsAux (t ++ rest) acc = splitSepsAux rest (t.reverse ++ acc) := by
  induction t with
  | nil => intro rest acc; simp
  | cons c cs ih =>
      intro rest acc
      have hc : isSepChar c = false := h c (by simp)
      rw [List.cons_append, splitSepsAux]
      simp only [hc, Bool.false_eq_true, if_false]
      rw [ih (fun x hx => h x (by simp [hx])) rest (c :: acc)]
      simp [List.append_assoc]

theorem splitSepsAux_join : ∀ toks : List (List Char),
    (∀ t ∈ toks, t ≠ [] ∧ (∀ c ∈ t, isSepChar c = false)) →
    splitSepsAux (joinCommaChars toks) [] = toks := by
  intro toks
  induction toks with
  | nil => intro _; rfl
  | cons t ts ih =>
      intro h
      obtain ⟨hne, hsf⟩ := h t (by simp)
      cases ts with
      | nil =>
          have htok := splitSepsAux_token t hsf [] []
          rw [List.append_nil] at htok
          rw [show joinCommaChars [t] = t from rfl, htok, splitSepsAux]
          simp [List.isEmpty_iff, hne]
      | cons t2 ts2 =>
          rw [show joinCommaChars (t :: t2 :: ts2)
                = t ++ ',' :: joinCommaChars (t2 :: ts2) from rfl]
          rw [splitSepsAux_token t hsf]
          rw [splitSepsAux]
          simp only [show isSepChar ',' = true from by decide, if_true,
            List.append_nil]
          rw [if_neg (by simp [List.isEmpty_iff, hne])]
          rw [List.reverse_reverse]
          rw [ih (fun x hx => h x (by simp [hx]))]

theorem natToChars_not_sep (n : Nat) :
    ∀ c ∈ natToChars n, isSepChar c = false := by
  intro c hc
  obtain ⟨d, hd, rfl⟩ := natToChars_mem n c hc
  exact (digitChar_facts d hd).2.2.1

/-- Every rendered number is a non-empty run of the characters
`0–9 . e + -`, none of which is a token separator. -/
theorem jsNatToChars_props (d : Nat) :
    jsNatToChars d ≠ [] ∧ ∀ c ∈ jsNatToChars d, isSepChar c = false := by
  unfold jsNatToChars
  by_cases hv : shortestV d < 10 ^ 21
  · rw [if_pos hv]
    exact ⟨natToChars_ne_nil _, natToChars_not_sep _⟩
  · rw [if_neg hv]
    cases hm : natToChars (stripZeros (shortestV d)) with
    | nil =>
        refine ⟨by simp, ?_⟩
        intro c hc
        simp only [List.mem_singleton] at hc
        subst hc
        decide
    | cons c0 rest =>
        refine ⟨by simp, ?_⟩
        intro c hc
        simp only [List.mem_cons, List.mem_append] at hc
        rcases hc with rfl | hc
        · exact natToChars_not_sep _ c (by rw [hm]; simp)
        rcases hc with hc | hc
        · by_cases hre : rest.isEmpty = true
          · rw [if_pos hre] at hc
            exact absurd hc (List.not_mem_nil c)
          · rw [if_neg hre] at hc
            rcases List.mem_cons.mp hc with rfl | hc
            · decide
            · exact natToChars_not_sep _ c (by rw [hm]; simp [hc])
        · rcases hc with rfl | hc
          · decide
          rcases hc with rfl | hc
          · decide
          · exact natToChars_not_sep _ c hc

theorem intToString_data_props (n : Int) :
    (intToString n).data ≠ [] ∧
      (∀ c ∈ (intToString n).data, isSepChar c = false) := by
  obtain ⟨hne, hsep⟩ := jsNatToChars_props n.natAbs
  unfold intToString
  by_cases hneg : n < 0
  · rw [if_pos hneg]
    refine ⟨by simp, ?_⟩
    intro c hc
    rw [show (String.mk ('-' :: jsNatToChars n.natAbs)).data
        = '-' :: jsNatToChars n.natAbs from rfl] at hc
    rcases List.mem_cons.mp hc with rfl | hc
    · decide
    · exact hsep c hc
  · rw [if_neg hneg]
    exact ⟨by simpa using hne, fun c hc => hsep c (by simpa using hc)⟩

theorem parseTokens_intToString : ∀ ns : List Int,
    (∀ n ∈ ns, n.natAbs < 2 ^ 53) →
    parseTokens (ns.map (fun n => (intToString n).data)) = .ok ns := by
  intro ns
  induction ns with
  | nil => intro _; rfl
  | cons n ns ih =>
      intro h
      simp [parseTokens, jsParseInt_intToString n (h n (by simp)),
        ih (fun x hx => h x (by simp [hx])), Except.map]

/-- C9: `parseQueryIds` maps `"42, 99  103"` to `[42, 99, 103]` and
raises an error naming the offending token on `"42,x"`; the comma-join
round trip `parseQueryIds(join(",", ids)) = ids` holds whenever every
parsed id lies in the double-exact safe-integer range `|id| < 2^53` —
but not unconditionally: from `10^21` upward `join` renders an id in
exponential notation, which `parseInt` cannot read back (see the
counterexample). -/
theorem parseQueryIds_examples_and_safe_idempotent :
    parseQueryIds "42, 99  103" = .ok [42, 99, 103] ∧
    parseQueryIds "42,x" = .error "Invalid query ID: \"x\"" ∧
    ∀ s ns, parseQueryIds s = .ok ns → (∀ n ∈ ns, n.natAbs < 2 ^ 53) →
      parseQueryIds (commaJoinInts ns) = parseQueryIds s := by
  refine ⟨by rfl, by rfl, ?_⟩
  intro s ns h hsafe
  rw [h]
  have hprops : ∀ t ∈ ns.map (fun n => (intToString n).data),
      t ≠ [] ∧ (∀ c ∈ t, isSepChar c = false) := by
    intro t ht
    rw [List.mem_map] at ht
    obtain ⟨n, _, rfl⟩ := ht
    exact intToString_data_props n
  unfold parseQueryIds commaJoinInts
  rw [show (String.mk (joinCommaChars (ns.map (fun n => (intToString n).data)))).data
        = joinCommaChars (ns.map (fun n => (intToString n).data)) from rfl]
  rw [splitSepsAux_join _ hprops]
  rw [List.map_congr_left (fun t ht => trimChars_sepFree t (hprops t ht).2)]
  rw [List.map_id']
  rw [List.filter_eq_self.mpr
    (fun t ht => by simp [List.isEmpty_iff, (hprops t ht).1])]
  exact parseTokens_intToString ns hsafe

/-- Witness for the safe-range idempotence conjunct of C9 at the
concrete input `"42, 99  103"`, whose three ids all lie below `2^53`. -/
theorem parseQueryIds_idempotent_witness :
    (∀ n ∈ ([42, 99, 103] : List Int), n.natAbs < 2 ^ 53) ∧
    parseQueryIds (commaJoinInts [42, 99, 103]) = parseQueryIds "42, 99  103" :=
  ⟨by decide, parseQueryIds_examples_and_safe_idempotent.2.2 "42, 99  103"
    [42, 99, 103] (by rfl) (by decide)⟩

/-- C9 counterexample to the unrestricted idempotency law: `10^21` is an
exactly representable double, so `parseQueryIds` reads the 22-digit
input without loss, but `join(",")` renders the id in exponential
notation `1e+21` (ECMAScript number-to-string switches at `10^21`), and
`parseInt` reads only the digit prefix `1` of that back — re-parsing the
comma-join of a successful parse changes the ids. -/
theorem parseQueryIds_exponential_roundtrip_fails :
    parseQueryIds "1000000000000000000000" =
      .ok [(1000000000000000000000 : Int)] ∧
    commaJoinInts [(1000000000000000000000 : Int)] = "1e+21" ∧
    parseQueryIds (commaJoinInts [(1000000000000000000000 : Int)]) =
      .ok [1] ∧
    ((1000000000000000000000 : Int) ≠ 1) :=
  ⟨rfl, rfl, rfl, by decide⟩

/-! ## SQL query analyzer (`src/query-analyzer.ts`)

The dimensions of `analyzeQuery` that the verified properties mention:
the CTE extraction (`extractCTEs`, lines 169–199, with the
balanced-parenthesis scan of `extractParenContent`, lines 473–484), the
`union_structure` flag and the structural tag (`detectStructure`, lines
440–452).  The regex battery is modelled by explicit left-to-right
scanners with the same match semantics (leftmost match, continuation
after the match end, `\b` via a previous-character-is-word-char flag). -/

/-- `sql.replace(/\s+/g, " ")`: collapse every whitespace run to a
single space. -/
def squeezeWs : List Char → List Char
  | [] => []
  | [c] => [if c.isWhitespace then ' ' else c]
  | c :: d :: cs =>
      if c.isWhitespace && d.isWhitespace then squeezeWs (d :: cs)
      else (if c.isWhitespace then ' ' else c) :: squeezeWs (d :: cs)

/-- The `normalized` string of `analyzeQuery`:
`sql.replace(/\s+/g, " ").trim()`. -/
def normalizeSql (s : String) : List Char := trimChars (squeezeWs s.data)

/-- JavaScript's `\w` class: `[A-Za-z0-9_]`. -/
def isWordChar (c : Char) : Bool := c.isAlphanum || c == '_'

/-- Does the word `w` start here, ending at a `\b` boundary? -/
def matchesWordAt : List Char → List Char → Bool
  | [], [] => true
  | [], c :: _ => !isWordChar c
  | _ :: _, [] => false
  | c :: w, d :: l => c == d && matchesWordAt w l

/-- Scan for `\b<w>\b`; the Bool argument records whether the previous
character was a word character (the `\b` context). -/
def containsWordAux (w : List Char) : Bool → List Char → Bool
  | _, [] => false
  | prevWord, c :: cs =>
      (!prevWord && matchesWordAt w (c :: cs)) || containsWordAux w (isWordChar c) cs

/-- `/\b<w>\b/.test(s)` for a word `w` made of word characters. -/
def containsWord (w : String) (s : List Char) : Bool := containsWordAux w.data false s

/-- `detectStructure` from `src/query-analyzer.ts` (lines 440–452):
priority `cte_union > cte > union > multi_join > single_table`.  The
source field is named `structure`, a Lean keyword, so the embedding
calls it `structureTag`. -/
def detectStructure (upper : List Char) : String :=
  let hasCTE := containsWord "WITH" upper
  let hasUnion := containsWord "UNION" upper
  let hasJoin := containsWord "JOIN" upper
  if hasCTE && hasUnion then "cte_union"
  else if hasCTE then "cte"
  else if hasUnion then "union"
  else if hasJoin then "multi_join"
  else "single_table"

/-- `SQL_KEYWORDS` from `src/query-analyzer.ts` (lines 456–467). -/
def sqlKeywords : List String := [
  "select", "from", "where", "and", "or", "not", "in", "on", "as",
  "join", "left", "right", "inner", "outer", "cross", "full",
  "group", "order", "by", "having", "limit", "offset", "union",
  "all", "distinct", "case", "when", "then", "else", "end",
  "with", "recursive", "insert", "update", "delete", "create",
  "alter", "drop", "table", "index", "view", "true", "false",
  "null", "is", "between", "like", "ilike", "exists", "any",
  "asc", "desc", "cast", "interval", "date", "timestamp",
  "current_date", "current_timestamp", "now", "generate_series",
  "lateral", "filter", "over", "partition", "row_number", "rank"]

/-- `isKeyword` from `src/query-analyzer.ts`. -/
def isKeyword (w : String) : Bool := sqlKeywords.contains (toLowerStr w)

/-- `extractParenContent`: balanced scan from the character after the
opening parenthesis (depth 1); an unbalanced body yields the whole
rest, as in the source. -/
def parenScan : Nat → List Char → List Char
  | _, [] => []
  | depth, c :: cs =>
      if c == '(' then c :: parenScan (depth + 1) cs
      else if c == ')' then (if depth = 1 then [] else c :: parenScan (depth - 1) cs)
      else c :: parenScan depth cs

/-- Match the `\s+AS\s*\(` tail of the CTE-head regex
`/(\w+)\s+AS\s*\(/gi`; returns the characters after the `(`. -/
def tryAsParen (rest : List Char) : Option (List Char) :=
  match rest with
  | c :: cs =>
      if c.isWhitespace then
        match cs.dropWhile Char.isWhitespace with
        | a :: s :: rest2 =>
            if a.toUpper == 'A' && s.toUpper == 'S' then
              match rest2.dropWhile Char.isWhitespace with
              | '(' :: after => some after
              | _ => none
            else none
        | _ => none
      else none
  | [] => none

/-- `matchAll` of `/(\w+)\s+AS\s*\(/gi` paired with the balanced-paren
body: emits (captured name, body) and continues after the `(`.  Because
`\w` and `\s` are disjoint, a match is possible at a position inside a
word run iff it is possible at the run's start, so the leftmost match of
the regex is found at run starts.  The fuel argument (the input length
at the call site) makes the recursion structural. -/
def scanCtes : Nat → List Char → List (String × String)
  | 0, _ => []
  | _ + 1, [] => []
  | fuel + 1, c :: cs =>
      if isWordChar c then
        match tryAsParen ((c :: cs).dropWhile isWordChar) with
        | some afterParen =>
            (String.mk ((c :: cs).takeWhile isWordChar),
             String.mk (parenScan 1 afterParen)) :: scanCtes fuel afterParen
        | none => scanCtes fuel cs
      else scanCtes fuel cs

/-- Match `FROM\s+(\w+)` (case-insensitive) at this position; returns
the captured table name and the continuation. -/
def matchFromAt (l : List Char) : Option (String × List Char) :=
  match l with
  | f :: r :: o :: m :: rest =>
      if f.toUpper == 'F' && r.toUpper == 'R' && o.toUpper == 'O' && m.toUpper == 'M' then
        match rest with
        | c :: cs =>
            if c.isWhitespace then
              let cs2 := cs.dropWhile Char.isWhitespace
              let run := cs2.takeWhile isWordChar
              if run.isEmpty then none
              else some (String.mk run, cs2.dropWhile isWordChar)
            else none
        | [] => none
      else none
  | _ => none

/-- `matchAll` of `/\bFROM\s+(\w+)/gi`. -/
def scanFroms : Nat → Bool → List Char → List String
  | 0, _, _ => []
  | _ + 1, _, [] => []
  | fuel + 1, prevWord, c :: cs =>
      if !prevWord then
        match matchFromAt (c :: cs) with
        | some (name, after) => name :: scanFroms fuel true after
        | none => scanFroms fuel (isWordChar c) cs
      else scanFroms fuel (isWordChar c) cs

/-- Tables referenced inside a CTE body: captured `FROM` targets,
lower-cased, keywords dropped. -/
def cteTables (body : List Char) : List String :=
  ((scanFroms body.length false body).map toLowerStr).filter (fun t => !isKeyword t)

/-- Match `WITH\s` (case-insensitive) at this position — the head test
`/\bWITH\s+/gi.test(sql)` of `extractCTEs`. -/
def matchWithWs : List Char → Bool
  | w :: i :: t :: h :: rest =>
      w.toUpper == 'W' && i.toUpper == 'I' && t.toUpper == 'T' && h.toUpper == 'H' &&
        (match rest with | c :: _ => c.isWhitespace | [] => false)
  | _ => false

/-- Scan for `/\bWITH\s+/i`. -/
def hasWithWsAux : Bool → List Char → Bool
  | _, [] => false
  | prevWord, c :: cs =>
      (!prevWord && matchWithWs (c :: cs)) || hasWithWsAux (isWordChar c) cs

/-- `CteRef` from `src/query-analyzer.ts` (lines 43–47). -/
structure CteRef where
  name : String
  sql : String
  tables : List String
deriving Repr, DecidableEq

/-- `extractCTEs` from `src/query-analyzer.ts` (lines 169–199). -/
def extractCTEs (sql : List Char) : List CteRef :=
  if !hasWithWsAux false sql then []
  else
    (scanCtes sql.length sql).filterMap (fun nb =>
      let nameL := toLowerStr nb.1
      if nameL == "date" || isKeyword nameL then none
      else some { name := nameL, sql := String.mk (trimChars nb.2.data),
                  tables := cteTables nb.2.data })

/-- The claim-relevant dimensions of the `QueryAnalysis` record: the
CTE list, the `union_structure` flag and the structural tag (source
field `structure`).  The remaining dimensions (tables, joins,
aggregations, date filters, …) are outside the verified properties and
are not embedded. -/
structure QueryAnalysisCore where
  ctes : List CteRef
  union_structure : Bool
  structureTag : String
deriving Repr, DecidableEq

/-- `analyzeQuery` from `src/query-analyzer.ts` (lines 92–114),
restricted to the claim-relevant dimensions: it normalizes the SQL,
uppercases it, and fills each dimension from its extractor. -/
def analyzeQuery (s : String) : QueryAnalysisCore :=
  let normalized := normalizeSql s
  let upper := normalized.map Char.toUpper
  { ctes := extractCTEs normalized,
    union_structure := containsWord "UNION" upper,
    structureTag := detectStructure upper }

/-- C10: for every SQL input the structural tag follows the priority
`cte_union > cte > union > multi_join > single_table` over the presence
of `WITH`, `UNION` and `JOIN` in the normalized uppercased text; and on
`"WITH a AS (SELECT 1) SELECT * FROM a UNION SELECT * FROM b"` the
analyzer returns `structure = "cte_union"`, `union_structure = true`
and `ctes = [{name := "a", tables := []}]`, the CTE body being read by
the balanced-parenthesis scan. -/
theorem analyzeQuery_structure_priority_and_cte_union :
    (∀ s : String,
      (analyzeQuery s).structureTag =
        (let upper := (normalizeSql s).map Char.toUpper
         if containsWord "WITH" upper && containsWord "UNION" upper then "cte_union"
         else if containsWord "WITH" upper then "cte"
         else if containsWord "UNION" upper then "union"
         else if containsWord "JOIN" upper then "multi_join"
         else "single_table")) ∧
    analyzeQuery "WITH a AS (SELECT 1) SELECT * FROM a UNION SELECT * FROM b" =
      { ctes := [{ name := "a", sql := "SELECT 1", tables := [] }],
        union_structure := true, structureTag := "cte_union" } :=
  ⟨fun _ => rfl, rfl⟩

/-! ## Conversation messages and transcript translation
(`src/client/db.ts`, `src/client/agent.ts`)

A stored message's rôle-dependent optional fields are kept as in the
source (`Message` in `src/client/db.ts`); `createdAt` ordering is the
list order of the per-session store. -/

/-- The `role` field of a stored message. -/
inductive DbRole where
  | user | assistant | toolUse | toolResult
deriving Repr, DecidableEq

/-- `Message` from `src/client/db.ts` (without `sessionId`/`createdAt`,
which the per-session stores carry). -/
structure DbMessage where
  role : DbRole
  content : String
  toolName : Option String := none
  toolInput : Option Json := none
  toolUseId : Option String := none
deriving Repr

/-- Role of a Claude API message. -/
inductive ClaudeRole where
  | user | assistant
deriving Repr, DecidableEq

/-- A Claude API content block (`ContentBlock` in
`src/client/agent.ts`): text, `tool_use` (id, name, input) or
`tool_result` (tool_use_id, content). -/
inductive ContentBlock where
  | text : String → ContentBlock
  | toolUse : String → String → Json → ContentBlock
  | toolResult : String → String → ContentBlock
deriving Repr

/-- A Claude API message (`MessageParam`). -/
structure ClaudeMessage where
  role : ClaudeRole
  content : List ContentBlock
deriving Repr

/-- The translator's loop state: emitted messages plus the current
`currentRole`/`currentContent` pair of `dbMessagesToClaudeMessages`. -/
structure TransState where
  claude : List ClaudeMessage
  currentRole : Option ClaudeRole
  currentContent : List ContentBlock
deriving Repr

/-- The inner `flush()` of `dbMessagesToClaudeMessages`: push the
current turn if it has a role and non-empty content. -/
def flushT (st : TransState) : TransState :=
  match st.currentRole with
  | some r =>
      if st.currentContent.isEmpty then st
      else { claude := st.claude ++ [⟨r, st.currentContent⟩],
             currentRole := some r, currentContent := [] }
  | none => st

/-- One iteration of the `for (const msg of dbMsgs)` loop of
`dbMessagesToClaudeMessages` (`src/client/agent.ts`, lines 229–264).
The source reads `msg.toolUseId!` / `msg.toolName!` with non-null
assertions; transcripts produced by this system always set them, and the
embedding defaults them like `toolInput ?? {}`. -/
def stepT (st : TransState) (msg : DbMessage) : TransState :=
  match msg.role with
  | .user =>
      let st1 := flushT st
      { st1 with currentRole := some .user,
                 currentContent := [ContentBlock.text msg.content] }
  | .assistant =>
      let st1 := flushT st
      { st1 with currentRole := some .assistant,
                 currentContent := [ContentBlock.text msg.content] }
  | .toolUse =>
      let st1 :=
        if st.currentRole ≠ some ClaudeRole.assistant then
          let st2 := flushT st
          { st2 with currentRole := some .assistant, currentContent := [] }
        else st
      { st1 with currentContent := st1.currentContent ++
          [ContentBlock.toolUse (msg.toolUseId.getD "") (msg.toolName.getD "")
            (msg.toolInput.getD (Json.obj []))] }
  | .toolResult =>
      let st1 :=
        if st.currentRole ≠ some ClaudeRole.user then
          let st2 := flushT st
          { st2 with currentRole := some .user, currentContent := [] }
        else st
      { st1 with currentContent := st1.currentContent ++
          [ContentBlock.toolResult (msg.toolUseId.getD "") msg.content] }

/-- `dbMessagesToClaudeMessages` from `src/client/agent.ts`
(lines 217–268). -/
def dbMessagesToClaudeMessages (msgs : List DbMessage) : List ClaudeMessage :=
  (flushT (msgs.foldl stepT ⟨[], none, []⟩)).claude

/-- Is this block a `tool_use` block? -/
def blockIsToolUse : ContentBlock → Bool
  | .toolUse _ _ _ => true
  | _ => false

/-- Is this block a `tool_result` block? -/
def blockIsToolResult : ContentBlock → Bool
  | .toolResult _ _ => true
  | _ => false

/-- Role purity of an emitted message: no `tool_use` block on a user
turn, no `tool_result` block on an assistant turn. -/
def msgPure (m : ClaudeMessage) : Prop :=
  (m.role = ClaudeRole.user → ∀ b ∈ m.content, blockIsToolUse b = false) ∧
  (m.role = ClaudeRole.assistant → ∀ b ∈ m.content, blockIsToolResult b = false)

/-- Invariant of the translation state. -/
def stInv (st : TransState) : Prop :=
  (∀ m ∈ st.claude, msgPure m) ∧
  (st.currentRole = some ClaudeRole.user →
    ∀ b ∈ st.currentContent, blockIsToolUse b = false) ∧
  (st.currentRole = some ClaudeRole.assistant →
    ∀ b ∈ st.currentContent, blockIsToolResult b = false) ∧
  (st.currentRole = none → st.currentContent = [])

theorem flushT_inv (st : TransState) (h : stInv st) : stInv (flushT st) := by
  obtain ⟨hclaude, huser, hassistant, hnone⟩ := h
  unfold flushT
  cases hrole : st.currentRole with
  | none => exact ⟨hclaude, huser, hassistant, hnone⟩
  | some r =>
      by_cases hempty : st.currentContent.isEmpty
      · simp only [hempty, if_pos]
        exact ⟨hclaude, huser, hassistant, hnone⟩
      · simp only [hempty, if_neg, Bool.false_eq_true, not_false_iff]
        refine ⟨?_, ?_, ?_, ?_⟩
        · intro m hm
          rw [List.mem_append] at hm
          rcases hm with hm | hm
          · exact hclaude m hm
          · rw [List.mem_singleton] at hm
            subst hm
            constructor
            · intro hr b hb
              cases r with
              | user => exact huser hrole b hb
              | assistant => simp at hr
            · intro hr b hb
              cases r with
              | user => simp at hr
              | assistant => exact hassistant hrole b hb
        · intro _ b hb; simp at hb
        · intro _ b hb; simp at hb
        · intro _; rfl

theorem stepT_inv (st : TransState) (msg : DbMessage) (h : stInv st) :
    stInv (stepT st msg) := by
  have hf := flushT_inv st h
  obtain ⟨hfc, hfu, hfa, hfn⟩ := hf
  obtain ⟨hclaude, huser, hassistant, hnone⟩ := h
  unfold stepT
  cases msg.role with
  | user =>
      refine ⟨hfc, fun _ b hb => ?_, fun hr => ?_, fun hr => ?_⟩
      · simp only [List.mem_singleton] at hb; subst hb; rfl
      · simp at hr
      · simp at hr
  | assistant =>
      refine ⟨hfc, fun hr => ?_, fun _ b hb => ?_, fun hr => ?_⟩
      · simp at hr
      · simp only [List.mem_singleton] at hb; subst hb; rfl
      · simp at hr
  | toolUse =>
      by_cases hrole : st.currentRole = some ClaudeRole.assistant
      · rw [if_neg (not_not_intro hrole)]
        refine ⟨hclaude, fun hr => ?_, fun _ b hb => ?_, fun hr => ?_⟩
        · simp only [hrole] at hr; simp at hr
        · simp only [List.mem_append, List.mem_singleton] at hb
          rcases hb with hb | hb
          · exact hassistant hrole b hb
          · subst hb; rfl
        · simp only [hrole] at hr; simp at hr
      · rw [if_pos hrole]
        refine ⟨hfc, fun hr => ?_, fun _ b hb => ?_, fun hr => ?_⟩
        · simp at hr
        · simp only [List.nil_append, List.mem_singleton] at hb
          subst hb; rfl
        · simp at hr
  | toolResult =>
      by_cases hrole : st.currentRole = some ClaudeRole.user
      · rw [if_neg (not_not_intro hrole)]
        refine ⟨hclaude, fun _ b hb => ?_, fun hr => ?_, fun hr => ?_⟩
        · simp only [List.mem_append, List.mem_singleton] at hb
          rcases hb with hb | hb
          · exact huser hrole b hb
          · subst hb; rfl
        · simp only [hrole] at hr; simp at hr
        · simp only [hrole] at hr; simp at hr
      · rw [if_pos hrole]
        refine ⟨hfc, fun _ b hb => ?_, fun hr => ?_, fun hr => ?_⟩
        · simp only [List.nil_append, List.mem_singleton] at hb
          subst hb; rfl
        · simp at hr
        · simp at hr

theorem foldl_stepT_inv : ∀ (msgs : List DbMessage) (st : TransState),
    stInv st → stInv (msgs.foldl stepT st) := by
  intro msgs
  induction msgs with
  | nil => intro st h; exact h
  | cons m ms ih => intro st h; exact ih _ (stepT_inv st m h)

/-- C6 (amended): tool_use blocks are attached as extra blocks on the
current assistant turn (coalescing with preceding assistant content) and
tool_result blocks on the current user turn (coalescing with preceding
user content); a `user` text message always starts a fresh turn, so a
tool_result does **not** coalesce with user text that follows it; and in
the translated output tool_use blocks never appear on user turns and
tool_result blocks never appear on assistant turns. -/
theorem dbMessages_translation_turns :
    (∀ msgs : List DbMessage, ∀ m ∈ dbMessagesToClaudeMessages msgs,
      (m.role = ClaudeRole.user → ∀ b ∈ m.content, blockIsToolUse b = false) ∧
      (m.role = ClaudeRole.assistant → ∀ b ∈ m.content, blockIsToolResult b = false)) ∧
    (∀ (st : TransState) (msg : DbMessage),
      st.currentRole = some ClaudeRole.assistant → msg.role = DbRole.toolUse →
      stepT st msg = { st with currentContent := st.currentContent ++
        [ContentBlock.toolUse (msg.toolUseId.getD "") (msg.toolName.getD "")
          (msg.toolInput.getD (Json.obj []))] }) ∧
    (∀ (st : TransState) (msg : DbMessage),
      st.currentRole = some ClaudeRole.user → msg.role = DbRole.toolResult →
      stepT st msg = { st with currentContent := st.currentContent ++
        [ContentBlock.toolResult (msg.toolUseId.getD "") msg.content] }) ∧
    (∀ (st : TransState) (msg : DbMessage), msg.role = DbRole.user →
      stepT st msg = { flushT st with
                       currentRole := some ClaudeRole.user
                       currentContent := [ContentBlock.text msg.content] }) := by
  refine ⟨?_, ?_, ?_, ?_⟩
  · intro msgs m hm
    have hinv : stInv (flushT (msgs.foldl stepT ⟨[], none, []⟩)) := by
      refine flushT_inv _ (foldl_stepT_inv msgs _ ?_)
      refine ⟨?_, ?_, ?_, ?_⟩
      · intro x hx; simp at hx
      · intro _ b hb; simp at hb
      · intro _ b hb; simp at hb
      · intro _; rfl
    exact hinv.1 m hm
  · intro st msg hrole hmsg
    unfold stepT
    rw [hmsg, if_neg (not_not_intro hrole)]
  · intro st msg hrole hmsg
    unfold stepT
    rw [hmsg, if_neg (not_not_intro hrole)]
  · intro st msg hmsg
    unfold stepT
    rw [hmsg]

/-- The two-message transcript exhibiting the non-coalescing behavior. -/
def c6Transcript : List DbMessage :=
  [{ role := .toolResult, content := "r", toolUseId := some "u1" },
   { role := .user, content := "hi" }]

/-- C6 counterexample: a `tool_result` followed by `user` text is
translated to **two** user turns — the tool_result block and the text
block of the following user message never share a turn, contradicting
"coalescing with the user text that follows it". -/
theorem dbMessages_toolResult_user_not_coalesced :
    dbMessagesToClaudeMessages c6Transcript =
      [⟨ClaudeRole.user, [ContentBlock.toolResult "u1" "r"]⟩,
       ⟨ClaudeRole.user, [ContentBlock.text "hi"]⟩] ∧
    ∀ m ∈ dbMessagesToClaudeMessages c6Transcript,
      ¬(ContentBlock.toolResult "u1" "r" ∈ m.content ∧
        ContentBlock.text "hi" ∈ m.content) := by
  refine ⟨rfl, ?_⟩
  intro m hm
  rw [show dbMessagesToClaudeMessages c6Transcript =
      [⟨ClaudeRole.user, [ContentBlock.toolResult "u1" "r"]⟩,
       ⟨ClaudeRole.user, [ContentBlock.text "hi"]⟩] from rfl] at hm
  rcases List.mem_cons.mp hm with rfl | hm
  · rintro ⟨-, htext⟩
    simp at htext
  · rcases List.mem_cons.mp hm with rfl | hm
    · rintro ⟨htr, -⟩
      simp at htr
    · simp at hm

/-- Witness for the amended C6 theorem: the purity conjunct at the
transcript above, and the coalescing conjunct at a concrete assistant
state. -/
theorem dbMessages_translation_turns_witness :
    (∀ b ∈ [ContentBlock.toolResult "u1" "r"], blockIsToolUse b = false) ∧
    stepT ⟨[], some ClaudeRole.assistant, [ContentBlock.text "a"]⟩
        { role := DbRole.toolUse, content := "", toolName := some "query",
          toolInput := some (Json.obj []), toolUseId := some "u1" } =
      ⟨[], some ClaudeRole.assistant,
        [ContentBlock.text "a", ContentBlock.toolUse "u1" "query" (Json.obj [])]⟩ :=
  ⟨(dbMessages_translation_turns.1 c6Transcript
      ⟨ClaudeRole.user, [ContentBlock.toolResult "u1" "r"]⟩
      (by rw [show dbMessagesToClaudeMessages c6Transcript =
          [⟨ClaudeRole.user, [ContentBlock.toolResult "u1" "r"]⟩,
           ⟨ClaudeRole.user, [ContentBlock.text "hi"]⟩] from rfl]
          exact List.mem_cons_self _ _)).1 rfl,
   dbMessages_translation_turns.2.1 _ _ rfl rfl⟩

/-! ## Agent loop (`src/client/agent.ts`, `chat`)

The LLM and the MCP bridge are oracles in a `ChatEnv`: `llm` maps the
message list sent to the API to the response (content blocks and stop
reason), `callTool` maps a tool invocation to its text result or a
thrown error.  The per-session message store stands for the MongoDB
`messages` collection restricted to the session, in `createdAt` order. -/

/-- A content block of an LLM response: text or tool_use
(id, name, input). -/
inductive LlmBlock where
  | text : String → LlmBlock
  | toolUse : String → String → Json → LlmBlock
deriving Repr

/-- An LLM response: content blocks plus `stop_reason`. -/
structure LlmResponse where
  content : List LlmBlock
  stop_reason : String
deriving Repr

/-- Oracles for the two awaited collaborators of `chat`. -/
structure ChatEnv where
  llm : List ClaudeMessage → LlmResponse
  callTool : String → Json → Except String String

/-- One entry of the `toolCalls` result array. -/
structure ToolCallRec where
  name : String
  input : Json
  result : String
deriving Repr

/-- The value returned by `chat`. -/
structure ChatResult where
  assistantText : String
  toolCalls : List ToolCallRec
deriving Repr

/-- The text blocks of a response, in order. -/
def blockTexts (bs : List LlmBlock) : List String :=
  bs.filterMap (fun b => match b with | .text s => some s | _ => none)

/-- The tool_use blocks of a response, in order, as (id, name, input). -/
def blockToolUses (bs : List LlmBlock) : List (String × String × Json) :=
  bs.filterMap (fun b => match b with
    | .toolUse i n inp => some (i, n, inp)
    | _ => none)

/-- `textBlocks.join("\n")`. -/
def joinNl : List String → String
  | [] => ""
  | [s] => s
  | s :: rest => s ++ "\n" ++ joinNl rest

/-- The `for (let round = 0; round < MAX_TOOL_ROUNDS; round++)` loop of
`chat` (`src/client/agent.ts`, lines 295–385): call the LLM, persist the
assistant text (when non-empty, by JS truthiness) and the tool_use
messages, break with the round's text on `end_turn` or no tool calls,
otherwise run every tool (a thrown tool error becomes `Error: <msg>`),
persist the tool_results, re-translate and continue.  Exhausted fuel
returns the initial `finalText`, the empty string.  The last component
counts the LLM rounds executed; it is instrumentation for stating the
loop cap and not part of the source's return value. -/
def runRounds (env : ChatEnv) :
    Nat → List ClaudeMessage → List DbMessage → List ToolCallRec →
    String × List ToolCallRec × List DbMessage × Nat
  | 0, _, store, calls => ("", calls, store, 0)
  | fuel + 1, claudeMessages, store, calls =>
      let resp := env.llm claudeMessages
      let toolUses := blockToolUses resp.content
      let assistantText := joinNl (blockTexts resp.content)
      let store1 :=
        if assistantText == "" then store
        else store ++ [{ role := DbRole.assistant, content := assistantText }]
      let store2 := store1 ++ toolUses.map (fun tu =>
        { role := DbRole.toolUse, content := "", toolName := some tu.2.1,
          toolInput := some tu.2.2, toolUseId := some tu.1 })
      if resp.stop_reason == "end_turn" || toolUses.isEmpty then
        (assistantText, calls, store2, 1)
      else
        let acc := toolUses.foldl (fun acc tu =>
          let resultText :=
            match env.callTool tu.2.1 tu.2.2 with
            | .ok t => t
            | .error e => "Error: " ++ e
          (acc.1 ++ [{ role := DbRole.toolResult, content := resultText,
                       toolUseId := some tu.1 }],
           acc.2 ++ [⟨tu.2.1, tu.2.2, resultText⟩])) (store2, calls)
        let r := runRounds env fuel (dbMessagesToClaudeMessages acc.1) acc.1 acc.2
        (r.1, r.2.1, r.2.2.1, r.2.2.2 + 1)

/-- `MAX_TOOL_ROUNDS` from `src/client/agent.ts`. -/
def maxToolRounds : Nat := 20

/-- `chat` from `src/client/agent.ts` (lines 277–397): persist the user
message, load and translate the transcript, run the bounded loop, and
(for a first message) synthesize a title from a 60-character bound of
the user text.  Returns the result, the final message store, and the
title update (if any). -/
def chat (env : ChatEnv) (store : List DbMessage) (userMessage : String) :
    ChatResult × List DbMessage × Option String :=
  let store1 := store ++ [{ role := DbRole.user, content := userMessage }]
  let r := runRounds env maxToolRounds (dbMessagesToClaudeMessages store1) store1 []
  let title :=
    if store1.length ≤ 1 then
      some (if userMessage.length > 60
            then (userMessage.take 57) ++ "..." else userMessage)
    else none
  ({ assistantText := r.1, toolCalls := r.2.1 }, r.2.2.1, title)

/-- The loop executes at most `fuel` LLM rounds. -/
theorem runRounds_rounds_le (env : ChatEnv) :
    ∀ fuel cm store calls, (runRounds env fuel cm store calls).2.2.2 ≤ fuel := by
  intro fuel
  induction fuel with
  | zero => intro cm store calls; simp [runRounds]
  | succ f ih =>
      intro cm store calls
      unfold runRounds
      dsimp only
      split
      · simp
      · exact Nat.succ_le_succ (ih _ _ _)

/-- If every LLM response keeps the loop going (no `end_turn`, at least
one tool_use), the loop exhausts its fuel and yields the empty string. -/
theorem runRounds_always_continue_text (env : ChatEnv)
    (h : ∀ ms, (env.llm ms).stop_reason ≠ "end_turn" ∧
      blockToolUses (env.llm ms).content ≠ []) :
    ∀ fuel cm store calls, (runRounds env fuel cm store calls).1 = "" := by
  intro fuel
  induction fuel with
  | zero => intro cm store calls; rfl
  | succ f ih =>
      intro cm store calls
      obtain ⟨hstop, htools⟩ := h cm
      unfold runRounds
      dsimp only
      rw [if_neg (by simp [hstop, htools, List.isEmpty_iff])]
      exact ih _ _ _

/-- C7 (amended): the loop always terminates within the 20-round cap,
and when every round keeps the loop going (no `end_turn` stop, at least
one tool_use per response) `chat` exhausts the budget and returns the
**empty string** as `assistantText` — the per-round assistant texts are
persisted to the session store but not returned. -/
theorem chat_loop_cap_and_budget_exhaustion :
    (∀ (env : ChatEnv) cm store calls,
      (runRounds env maxToolRounds cm store calls).2.2.2 ≤ 20) ∧
    (∀ (env : ChatEnv) store userMessage,
      (∀ ms, (env.llm ms).stop_reason ≠ "end_turn" ∧
        blockToolUses (env.llm ms).content ≠ []) →
      (chat env store userMessage).1.assistantText = "") := by
  constructor
  · intro env cm store calls
    exact runRounds_rounds_le env maxToolRounds cm store calls
  · intro env store userMessage h
    unfold chat
    simp only []
    exact runRounds_always_continue_text env h maxToolRounds _ _ _

/-- An LLM oracle that always answers with text and a tool call and
never stops, with a bridge that always succeeds. -/
def c7Env : ChatEnv :=
  { llm := fun _ =>
      { content := [LlmBlock.text "working",
                    LlmBlock.toolUse "u1" "query" (Json.obj [])],
        stop_reason := "tool_use" },
    callTool := fun _ _ => .ok "ok" }

/-- C7 counterexample: with the always-continuing oracle the loop
exhausts its 20 rounds; assistant text "working" was accumulated in the
store each round (message index 1 shown), yet `chat` returns the empty
string, not the accumulated text. -/
theorem chat_budget_exhaustion_drops_text :
    (chat c7Env [] "hi").1.assistantText = "" ∧
    (chat c7Env [] "hi").2.1[1]? =
      some { role := DbRole.assistant, content := "working" } ∧
    (chat c7Env [] "hi").2.1.length = 61 := by
  refine ⟨?_, rfl, rfl⟩
  unfold chat
  simp only []
  exact runRounds_always_continue_text c7Env
    (fun ms => ⟨by simp [c7Env], by simp [c7Env, blockToolUses]⟩)
    maxToolRounds _ _ _

/-- Witness for the amended C7 theorem: cap and budget-exhaustion
conjuncts applied to the always-continuing oracle. -/
theorem chat_loop_cap_and_budget_exhaustion_witness :
    (runRounds c7Env maxToolRounds [] [] []).2.2.2 ≤ 20 ∧
    (chat c7Env [] "bye").1.assistantText = "" :=
  ⟨chat_loop_cap_and_budget_exhaustion.1 c7Env [] [] [],
   chat_loop_cap_and_budget_exhaustion.2 c7Env [] "bye"
     (fun ms => ⟨by simp [c7Env], by simp [c7Env, blockToolUses]⟩)⟩

/-! ## Conversation session store (`src/client/db.ts`)

`sessions` and `messages` are MongoDB collections; `deleteOne` removes
the first matching document, `deleteMany` every matching document. -/

/-- `Session` from `src/client/db.ts` (lines 7–13), with times as
naturals. -/
structure Session where
  sessionId : String
  userId : String
  title : String
  createdAt : Nat
  updatedAt : Nat
deriving Repr, DecidableEq

/-- A document of the `messages` collection: the payload of
`DbMessage` plus its `sessionId` and `createdAt`. -/
structure MessageDoc where
  sessionId : String
  msg : DbMessage
  createdAt : Nat
deriving Repr

/-- The two collections touched by `deleteSession`. -/
structure ChatStore where
  sessions : List Session
  messages : List MessageDoc
deriving Repr

/-- Mongo `deleteOne`: remove the first document matching the filter. -/
def deleteFirstSession (p : Session → Bool) : List Session → List Session
  | [] => []
  | s :: ss => if p s then ss else s :: deleteFirstSession p ss

/-- The filter `{ sessionId, userId? }` built by `deleteSession`. -/
def sessionFilterMatches (sessionId : String) (userId : Option String)
    (s : Session) : Bool :=
  s.sessionId == sessionId &&
    (match userId with | some u => s.userId == u | none => true)

/-- `deleteSession` from `src/client/db.ts` (lines 95–103):
`messages.deleteMany({ sessionId })` — note: **not** filtered by
`userId` — then `sessions.deleteOne(filter)` with the userId-scoped
filter. -/
def deleteSession (store : ChatStore) (sessionId : String)
    (userId : Option String) : ChatStore :=
  { sessions :=
      deleteFirstSession (sessionFilterMatches sessionId userId) store.sessions,
    messages := store.messages.filter (fun m => !(m.sessionId == sessionId)) }

/-- The session of the C8 failing input: owned by `alice`. -/
def c8Session : Session :=
  { sessionId := "s1", userId := "alice", title := "t",
    createdAt := 0, updatedAt := 0 }

/-- One message of that session. -/
def c8Message : MessageDoc :=
  { sessionId := "s1", msg := { role := DbRole.user, content := "hi" },
    createdAt := 1 }

/-- The store of the C8 failing input. -/
def c8Store : ChatStore := { sessions := [c8Session], messages := [c8Message] }

/-- C8 failing input, evaluated: `deleteSession("s1", "bob")` — `bob` is
not the owner — keeps the session record (the `deleteOne` filter carries
the userId) but deletes every message of the session (the `deleteMany`
filter does not), contradicting the claim that a non-owner delete leaves
the session's messages unchanged.  The route
`DELETE /api/sessions/:id` performs no ownership check before the
call. -/
theorem deleteSession_nonowner_deletes_messages :
    (deleteSession c8Store "s1" (some "bob")).sessions = [c8Session] ∧
    (deleteSession c8Store "s1" (some "bob")).messages = [] := by
  constructor <;> rfl

/-! ## Google authentication (`src/client/auth.ts`)

`authenticateGoogleUser` decodes a base64 JSON profile, verifies the
email against the `staffs` table, and upserts a non-expiring auth
session in MongoDB.  The base64/JSON decoding of the payload is
modelled by an `Option GoogleUserProfile` (`none` = undecodable); the
fresh `uuidv4()` token and `new Date()` are the `freshToken`/`now`
arguments; the MongoDB collection is the session list, `findOne` /
`updateOne` acting on the first match.  The function returns the result
together with the resulting session store. -/

/-- `AuthSession` from `src/client/auth.ts` (lines 7–14). -/
structure AuthSession where
  token : String
  userId : String
  email : String
  name : String
  picture : String
  createdAt : Nat
deriving Repr, DecidableEq

/-- `UserPublic` from `src/client/auth.ts` (lines 16–21). -/
structure UserPublic where
  userId : String
  email : String
  name : String
  picture : String
deriving Repr, DecidableEq

/-- The decoded `GoogleUserProfile` fields the function reads; absent
JSON fields are `none`. -/
structure GoogleUserProfile where
  email : Option String
  name : Option String
  picture : Option String
deriving Repr, DecidableEq

/-- JavaScript `v || d` for an optional string `v`: the default wins on
`undefined` and on the empty string. -/
def jsOr (v : Option String) (d : String) : String :=
  match v with
  | some s => if s == "" then d else s
  | none => d

/-- Mongo `updateOne`: apply `f` to the first document matching `p`. -/
def updateFirstSession (p : AuthSession → Bool) (f : AuthSession → AuthSession) :
    List AuthSession → List AuthSession
  | [] => []
  | s :: ss => if p s then f s :: ss else s :: updateFirstSession p f ss

/-- `authenticateGoogleUser` from `src/client/auth.ts` (lines 58–150). -/
def authenticateGoogleUser (dir : StaffDir) (sessions : List AuthSession)
    (payload : Option GoogleUserProfile) (freshToken : String) (now : Nat) :
    Except String (String × UserPublic) × List AuthSession :=
  match payload with
  | none => (.error "Invalid userProfile payload", sessions)
  | some profile =>
      if !emailProvided profile.email then
        (.error "Email missing from Google profile", sessions)
      else
        let email := normalizeEmail (profile.email.getD "")
        match dir email with
        | none =>
            (.error "Access denied: email not found in staff directory", sessions)
        | some row =>
            if !row.active then
              (.error "Access denied: staff account is deactivated", sessions)
            else
              match sessions.find? (fun s => s.email == email) with
              | some existing =>
                  let newName := jsOr profile.name existing.name
                  let newPicture := jsOr profile.picture existing.picture
                  (.ok (existing.token,
                    { userId := existing.userId, email := existing.email,
                      name := newName, picture := newPicture }),
                   updateFirstSession (fun s => s.email == email)
                     (fun s => { s with name := newName, picture := newPicture })
                     sessions)
              | none =>
                  let sess : AuthSession :=
                    { token := freshToken, userId := email, email := email,
                      name := jsOr profile.name "",
                      picture := jsOr profile.picture "", createdAt := now }
                  (.ok (freshToken,
                    { userId := sess.userId, email := sess.email,
                      name := sess.name, picture := sess.picture }),
                   sessions ++ [sess])

theorem find?_updateFirstSession (p : AuthSession → Bool)
    (f : AuthSession → AuthSession) (hf : ∀ s, p (f s) = p s) :
    ∀ l : List AuthSession,
      (updateFirstSession p f l).find? p = (l.find? p).map f := by
  intro l
  induction l with
  | nil => rfl
  | cons s ss ih =>
      by_cases hp : p s = true
      · rw [updateFirstSession, if_pos hp, List.find?_cons_of_pos _ (by rw [hf]; exact hp),
          List.find?_cons_of_pos _ hp]
        rfl
      · rw [updateFirstSession, if_neg hp,
          List.find?_cons_of_neg _ (by simpa using hp),
          List.find?_cons_of_neg _ (by simpa using hp), ih]

/-- The stable projection of an auth session: everything but the
refreshed `name`/`picture`. -/
def sessionCore (s : AuthSession) : String × String × String × Nat :=
  (s.token, s.userId, s.email, s.createdAt)

theorem updateFirstSession_map_core (p : AuthSession → Bool)
    (f : AuthSession → AuthSession) (hf : ∀ s, sessionCore (f s) = sessionCore s) :
    ∀ l : List AuthSession,
      (updateFirstSession p f l).map sessionCore = l.map sessionCore := by
  intro l
  induction l with
  | nil => rfl
  | cons s ss ih =>
      by_cases hp : p s = true
      · rw [updateFirstSession, if_pos hp, List.map_cons, List.map_cons, hf]
      · rw [updateFirstSession, if_neg hp, List.map_cons, List.map_cons, ih]

theorem find?_append_of_none {α : Type} (p : α → Bool) (l1 l2 : List α)
    (h : l1.find? p = none) : (l1 ++ l2).find? p = l2.find? p := by
  induction l1 with
  | nil => rfl
  | cons a l ih =>
      rw [List.find?_cons] at h
      rcases hpa : p a with _ | _
      · rw [List.cons_append, List.find?_cons_of_neg _ (by simp [hpa])]
        rw [hpa] at h
        exact ih (by simpa using h)
      · rw [hpa] at h; simp at h

/-- C5: authenticating twice with payloads carrying the same
(case-insensitively equal, trimmed) email of an active staff member
yields the **same token** both times, the second login refreshing only
the name and picture of the existing session (token, userId, email and
createdAt of every stored session are unchanged); and authenticating
with an email whose staff record is absent or inactive returns an
`Access denied` error and leaves the session store unchanged. -/
theorem authenticateGoogleUser_same_token_and_denial :
    (∀ (dir : StaffDir) (sessions : List AuthSession)
        (p1 p2 : GoogleUserProfile) (t1 t2 : String) (now1 now2 : Nat),
      emailProvided p1.email = true →
      emailProvided p2.email = true →
      normalizeEmail (p2.email.getD "") = normalizeEmail (p1.email.getD "") →
      (∃ row, dir (normalizeEmail (p1.email.getD "")) = some row ∧
        row.active = true) →
      ∃ tok u1 st1 u2 st2,
        authenticateGoogleUser dir sessions (some p1) t1 now1 = (.ok (tok, u1), st1) ∧
        authenticateGoogleUser dir st1 (some p2) t2 now2 = (.ok (tok, u2), st2) ∧
        st2.map sessionCore = st1.map sessionCore) ∧
    (∀ (dir : StaffDir) (sessions : List AuthSession) (p : GoogleUserProfile)
        (t : String) (now : Nat),
      emailProvided p.email = true →
      (dir (normalizeEmail (p.email.getD "")) = none ∨
        ∃ row, dir (normalizeEmail (p.email.getD "")) = some row ∧
          row.active = false) →
      (authenticateGoogleUser dir sessions (some p) t now =
          (.error "Access denied: email not found in staff directory", sessions) ∨
        authenticateGoogleUser dir sessions (some p) t now =
          (.error "Access denied: staff account is deactivated", sessions))) := by
  constructor
  · intro dir sessions p1 p2 t1 t2 now1 now2 hep1 hep2 hee hrow
    obtain ⟨row, hdir, hact⟩ := hrow
    cases hfind : sessions.find?
        (fun s => s.email == normalizeEmail (p1.email.getD "")) with
    | some existing =>
        have e1 : authenticateGoogleUser dir sessions (some p1) t1 now1 =
            (.ok (existing.token,
              { userId := existing.userId, email := existing.email,
                name := jsOr p1.name existing.name,
                picture := jsOr p1.picture existing.picture }),
             updateFirstSession
               (fun s => s.email == normalizeEmail (p1.email.getD ""))
               (fun s => { s with name := jsOr p1.name existing.name,
                                  picture := jsOr p1.picture existing.picture })
               sessions) := by
          simp [authenticateGoogleUser, hep1, hdir, hact, hfind]
        have hfind2 :
            (updateFirstSession
              (fun s => s.email == normalizeEmail (p1.email.getD ""))
              (fun s => { s with name := jsOr p1.name existing.name,
                                 picture := jsOr p1.picture existing.picture })
              sessions).find?
              (fun s => s.email == normalizeEmail (p1.email.getD "")) =
            some { existing with name := jsOr p1.name existing.name,
                                 picture := jsOr p1.picture existing.picture } := by
          rw [find?_updateFirstSession
            (fun s => s.email == normalizeEmail (p1.email.getD ""))
            (fun s => { s with name := jsOr p1.name existing.name,
                               picture := jsOr p1.picture existing.picture })
            (fun s => rfl), hfind]
          rfl
        have e2 : authenticateGoogleUser dir
            (updateFirstSession
              (fun s => s.email == normalizeEmail (p1.email.getD ""))
              (fun s => { s with name := jsOr p1.name existing.name,
                                 picture := jsOr p1.picture existing.picture })
              sessions) (some p2) t2 now2 =
            (.ok (existing.token,
              { userId := existing.userId, email := existing.email,
                name := jsOr p2.name (jsOr p1.name existing.name),
                picture := jsOr p2.picture (jsOr p1.picture existing.picture) }),
             updateFirstSession
               (fun s => s.email == normalizeEmail (p1.email.getD ""))
               (fun s => { s with
                 name := jsOr p2.name (jsOr p1.name existing.name),
                 picture := jsOr p2.picture (jsOr p1.picture existing.picture) })
               (updateFirstSession
                 (fun s => s.email == normalizeEmail (p1.email.getD ""))
                 (fun s => { s with name := jsOr p1.name existing.name,
                                    picture := jsOr p1.picture existing.picture })
                 sessions)) := by
          simp [authenticateGoogleUser, hep2, hee, hdir, hact, hfind2]
        refine ⟨existing.token, _, _, _, _, e1, e2, ?_⟩
        apply updateFirstSession_map_core
        intro s
        rfl
    | none =>
        have e1 : authenticateGoogleUser dir sessions (some p1) t1 now1 =
            (.ok (t1,
              { userId := normalizeEmail (p1.email.getD ""),
                email := normalizeEmail (p1.email.getD ""),
                name := jsOr p1.name "", picture := jsOr p1.picture "" }),
             sessions ++
               [{ token := t1, userId := normalizeEmail (p1.email.getD ""),
                  email := normalizeEmail (p1.email.getD ""),
                  name := jsOr p1.name "", picture := jsOr p1.picture "",
                  createdAt := now1 }]) := by
          simp [authenticateGoogleUser, hep1, hdir, hact, hfind]
        have hfind2 :
            (sessions ++
              [({ token := t1, userId := normalizeEmail (p1.email.getD ""),
                  email := normalizeEmail (p1.email.getD ""),
                  name := jsOr p1.name "", picture := jsOr p1.picture "",
                  createdAt := now1 } : AuthSession)]).find?
              (fun s => s.email == normalizeEmail (p1.email.getD "")) =
            some { token := t1, userId := normalizeEmail (p1.email.getD ""),
                   email := normalizeEmail (p1.email.getD ""),
                   name := jsOr p1.name "", picture := jsOr p1.picture "",
                   createdAt := now1 } := by
          rw [find?_append_of_none _ _ _ hfind]
          exact List.find?_cons_of_pos _ (by simp)
        have e2 : authenticateGoogleUser dir
            (sessions ++
              [{ token := t1, userId := normalizeEmail (p1.email.getD ""),
                 email := normalizeEmail (p1.email.getD ""),
                 name := jsOr p1.name "", picture := jsOr p1.picture "",
                 createdAt := now1 }]) (some p2) t2 now2 =
            (.ok (t1,
              { userId := normalizeEmail (p1.email.getD ""),
                email := normalizeEmail (p1.email.getD ""),
                name := jsOr p2.name (jsOr p1.name ""),
                picture := jsOr p2.picture (jsOr p1.picture "") }),
             updateFirstSession
               (fun s => s.email == normalizeEmail (p1.email.getD ""))
               (fun s => { s with
                 name := jsOr p2.name (jsOr p1.name ""),
                 picture := jsOr p2.picture (jsOr p1.picture "") })
               (sessions ++
                 [{ token := t1, userId := normalizeEmail (p1.email.getD ""),
                    email := normalizeEmail (p1.email.getD ""),
                    name := jsOr p1.name "", picture := jsOr p1.picture "",
                    createdAt := now1 }])) := by
          simp [authenticateGoogleUser, hep2, hee, hdir, hact, hfind2]
        refine ⟨t1, _, _, _, _, e1, e2, ?_⟩
        apply updateFirstSession_map_core
        intro s
        rfl
  · intro dir sessions p t now hep hden
    rcases hden with hdir | ⟨row, hdir, hact⟩
    · left
      simp [authenticateGoogleUser, hep, hdir]
    · right
      simp [authenticateGoogleUser, hep, hdir, hact]

/-- An active staff record for `a@x`. -/
def c5Dir : StaffDir :=
  fun e => if e = "a@x" then some { acls := [], active := true } else none

/-- First login payload (differently-cased, untrimmed email). -/
def c5P1 : GoogleUserProfile :=
  { email := some "A@X ", name := some "Alice", picture := none }

/-- Second login payload for the same person. -/
def c5P2 : GoogleUserProfile :=
  { email := some "a@x", name := none, picture := some "pic" }

/-- Witness for C5 at concrete payloads: both conjuncts applied with
their hypotheses discharged by computation. -/
theorem authenticateGoogleUser_same_token_witness :
    (∃ tok u1 st1 u2 st2,
      authenticateGoogleUser c5Dir [] (some c5P1) "tok1" 0 = (.ok (tok, u1), st1) ∧
      authenticateGoogleUser c5Dir st1 (some c5P2) "tok2" 1 = (.ok (tok, u2), st2) ∧
      st2.map sessionCore = st1.map sessionCore) ∧
    (authenticateGoogleUser c5Dir []
        (some { email := some "ghost@x", name := none, picture := none }) "t" 5 =
        (.error "Access denied: email not found in staff directory", []) ∨
      authenticateGoogleUser c5Dir []
        (some { email := some "ghost@x", name := none, picture := none }) "t" 5 =
        (.error "Access denied: staff account is deactivated", [])) :=
  ⟨authenticateGoogleUser_same_token_and_denial.1 c5Dir [] c5P1 c5P2 "tok1" "tok2"
      0 1 (by decide) (by decide) (by decide)
      ⟨{ acls := [], active := true }, by decide, rfl⟩,
   authenticateGoogleUser_same_token_and_denial.2 c5Dir []
      { email := some "ghost@x", name := none, picture := none } "t" 5
      (by decide) (Or.inl (by decide))⟩

/-! ## Tool layer (`src/tools.ts`)

`executeReadOnlyQuery` and `handleToolCall`.  The PostgreSQL engine is
external; it is modelled from the spec: a statement executed inside a
transaction declared `READ ONLY` at the engine level either reads
(leaving the state unchanged) or, when it is a mutating statement,
fails with `cannot execute <KW> in a read-only transaction` without a
state change — mutation is only possible outside a read-only
transaction.  The pure schema-intelligence and rule-generator outputs
(`src/schema-rules.ts`, `src/rule-generator.ts`) and the Redash HTTP
fetches are oracle fields of the environment: no verified claim
inspects their content, only how the gate wraps them. -/

/-- The relational store: committed row counts per table — enough state
for mutation to be observable. -/
structure DbState where
  tables : List (String × Nat)
deriving Repr, DecidableEq

/-- The statement's leading keyword, upper-cased (how the engine model
classifies a statement). -/
def firstWordUpper (sql : String) : String :=
  String.mk
    (((sql.data.dropWhile Char.isWhitespace).takeWhile Char.isAlpha).map Char.toUpper)

/-- Statements a read-only transaction refuses. -/
def mutatingKeywords : List String :=
  ["INSERT", "UPDATE", "DELETE", "TRUNCATE", "CREATE", "DROP", "ALTER",
   "GRANT", "REVOKE"]

/-- Statement keywords the engine model accepts as reads. -/
def readKeywords : List String := ["SELECT", "WITH", "SHOW", "EXPLAIN", "VALUES"]

/-- A query result (`{rowCount, rows}`). -/
structure QueryRes where
  rowCount : Nat
  rows : Json
deriving Repr

/-- Modelled from the spec: one statement executed by the external
PostgreSQL engine inside a transaction.  Under `readOnly = true` a
mutating statement errors with no state change; outside a read-only
transaction it would commit a state change (all row counts dropped, a
coarse but observable mutation). -/
def execStmt (readOnly : Bool) (db : DbState) (sql : String) :
    Except String (QueryRes × DbState) :=
  let kw := firstWordUpper sql
  if mutatingKeywords.contains kw then
    if readOnly then
      .error ("cannot execute " ++ kw ++ " in a read-only transaction")
    else
      .ok ({ rowCount := 0, rows := Json.arr [] },
           { tables := db.tables.map (fun t => (t.1, 0)) })
  else if readKeywords.contains kw then
    .ok ({ rowCount := db.tables.length, rows := Json.arr [] }, db)
  else
    .error ("syntax error at or near \"" ++ kw ++ "\"")

/-- `executeReadOnlyQuery` from `src/tools.ts` (lines 74–87): acquire a
connection, `BEGIN TRANSACTION READ ONLY`, run the statement, `COMMIT`
and release on success; `ROLLBACK` (discarding the transaction), release
and re-throw on error.  The returned state is the database state after
the call. -/
def executeReadOnlyQuery (db : DbState) (sql : String)
    (params : Option (List Json)) : Except String QueryRes × DbState :=
  match execStmt true db sql with
  | .ok (res, db2) => (.ok res, db2)
  | .error e => (.error e, db)

/-! ### Zod input schemas (`src/tools.ts`, lines 28–70) -/

/-- The zod type name of a JSON value, for `invalid_type` messages. -/
def jsonTypeName : Json → String
  | .null => "null"
  | .bool _ => "boolean"
  | .num _ => "number"
  | .str _ => "string"
  | .arr _ => "array"
  | .obj _ => "object"

/-- `z.string().min(1, msg)` on an object field: absent → `Required`,
wrong type → invalid-type message, empty → the custom message. -/
def requiredString (fields : List (String × Json)) (key msg : String) :
    Except (List String) String :=
  match fields.lookup key with
  | none => .error ["Required"]
  | some (Json.str s) => if s = "" then .error [msg] else .ok s
  | some j => .error ["Expected string, received " ++ jsonTypeName j]

/-- `z.string().optional().default(d)`. -/
def optionalString (fields : List (String × Json)) (key dflt : String) :
    Except (List String) String :=
  match fields.lookup key with
  | none => .ok dflt
  | some (Json.str s) => .ok s
  | some j => .error ["Expected string, received " ++ jsonTypeName j]

/-- `z.array(z.unknown()).optional()`. -/
def optionalArray (fields : List (String × Json)) (key : String) :
    Except (List String) (Option (List Json)) :=
  match fields.lookup key with
  | none => .ok none
  | some (Json.arr xs) => .ok (some xs)
  | some j => .error ["Expected array, received " ++ jsonTypeName j]

/-- `z.array(z.string()).optional()`. -/
def optionalStringArray (fields : List (String × Json)) (key : String) :
    Except (List String) (Option (List String)) :=
  match fields.lookup key with
  | none => .ok none
  | some (Json.arr xs) =>
      let errs := xs.filterMap (fun j =>
        match j with
        | Json.str _ => none
        | j => some ("Expected string, received " ++ jsonTypeName j))
      if errs = [] then
        .ok (some (xs.filterMap (fun j =>
          match j with | Json.str s => some s | _ => none)))
      else .error errs
  | some j => .error ["Expected array, received " ++ jsonTypeName j]

/-- Applicative issue accumulation of a zod object parse. -/
def collect2 {α β : Type} :
    Except (List String) α → Except (List String) β → Except (List String) (α × β)
  | .ok a, .ok b => .ok (a, b)
  | .error e, .ok _ => .error e
  | .ok _, .error f => .error f
  | .error e, .error f => .error (e ++ f)

/-- `QueryInputSchema.parse(args)`. -/
def parseQueryInput (args : Option (List (String × Json))) :
    Except (List String) (String × Option (List Json)) :=
  match args with
  | none => .error ["Required"]
  | some fields =>
      collect2 (requiredString fields "sql" "SQL query cannot be empty")
        (optionalArray fields "params")

/-- `ListTablesInputSchema.parse(args)`. -/
def parseListTablesInput (args : Option (List (String × Json))) :
    Except (List String) String :=
  match args with
  | none => .error ["Required"]
  | some fields => optionalString fields "schema" "public"

/-- `DescribeTableInputSchema.parse(args)`. -/
def parseDescribeTableInput (args : Option (List (String × Json))) :
    Except (List String) (String × String) :=
  match args with
  | none => .error ["Required"]
  | some fields =>
      collect2 (requiredString fields "table_name" "Table name cannot be empty")
        (optionalString fields "schema" "public")

/-- `ClassifyIntentInputSchema.parse(args)`. -/
def parseClassifyIntentInput (args : Option (List (String × Json))) :
    Except (List String) String :=
  match args with
  | none => .error ["Required"]
  | some fields => requiredString fields "question" "Question cannot be empty"

/-- `GetQueryTemplateInputSchema.parse(args)`. -/
def parseGetQueryTemplateInput (args : Option (List (String × Json))) :
    Except (List String) String :=
  match args with
  | none => .error ["Required"]
  | some fields => requiredString fields "pattern_name" "Pattern name cannot be empty"

/-- `AnalyzeQueryInputSchema.parse(args)`. -/
def parseAnalyzeQueryInput (args : Option (List (String × Json))) :
    Except (List String) String :=
  match args with
  | none => .error ["Required"]
  | some fields => requiredString fields "sql" "SQL query cannot be empty"

/-- `GenerateRulesInputSchema.parse(args)`. -/
def parseGenerateRulesInput (args : Option (List (String × Json))) :
    Except (List String)
      (String × String × String × String × Option (List String)) :=
  match args with
  | none => .error ["Required"]
  | some fields =>
      (collect2 (requiredString fields "sql" "SQL query cannot be empty")
        (collect2 (requiredString fields "pattern_name" "Pattern name cannot be empty")
          (collect2 (requiredString fields "description" "Description cannot be empty")
            (collect2 (requiredString fields "category" "Category cannot be empty")
              (optionalStringArray fields "intent_keywords"))))).map
        (fun x => x)

/-- `FetchRedashQueryInputSchema.parse(args)`. -/
def parseFetchRedashInput (args : Option (List (String × Json))) :
    Except (List String) String :=
  match args with
  | none => .error ["Required"]
  | some fields => requiredString fields "query_ids" "Query IDs cannot be empty"

/-- `GenerateRulesFromRedashInputSchema.parse(args)`. -/
def parseGenerateFromRedashInput (args : Option (List (String × Json))) :
    Except (List String) (String × String × Option (List String)) :=
  match args with
  | none => .error ["Required"]
  | some fields =>
      (collect2 (requiredString fields "query_ids" "Query IDs cannot be empty")
        (collect2 (optionalString fields "category" "custom")
          (optionalStringArray fields "intent_keywords"))).map (fun x => x)

/-! ### Redash client model and tool environment -/

/-- A Redash query definition (`RedashQuery`, the fields the handlers
read). -/
structure RedashQuery where
  id : Int
  name : String
  description : String
  query : String
deriving Repr

/-- `RedashFetchResult` from `src/redash-client.ts`. -/
structure RedashFetchResult where
  id : Int
  success : Bool
  query? : Option RedashQuery
  error? : Option String
deriving Repr

/-- The environment of a tool call: ACL config and staff directory, the
database, the pure schema-intelligence and rule-generation outputs
(`src/schema-rules.ts`, `src/rule-generator.ts` — total functions whose
content no verified claim inspects), and the Redash key and fetch
oracle. -/
structure ToolEnv where
  cfg : AclConfig
  staffDir : StaffDir
  db : DbState
  salesFunnelContext : Json
  classifyIntent : String → Json
  getQueryTemplate : String → Option Json
  queryPatterns : Json
  generateRulesOut : String → String → String → String →
    Option (List String) → Json
  redashApiKey : String
  fetchQuery : Int → RedashFetchResult

mutual

/-- `JSON.stringify` (single-line shape; no claim inspects success
payload text). -/
def renderJson : Json → String
  | .null => "null"
  | .bool b => if b then "true" else "false"
  | .num n => toString n
  | .str s => "\x22" ++ s ++ "\x22"
  | .arr xs => "[" ++ renderJsonList xs ++ "]"
  | .obj fs => "\x7b" ++ renderJsonObj fs ++ "\x7d"

def renderJsonList : List Json → String
  | [] => ""
  | [x] => renderJson x
  | x :: xs => renderJson x ++ ", " ++ renderJsonList xs

def renderJsonObj : List (String × Json) → String
  | [] => ""
  | [f] => "\x22" ++ f.1 ++ "\x22: " ++ renderJson f.2
  | f :: fs => "\x22" ++ f.1 ++ "\x22: " ++ renderJson f.2 ++ ", " ++ renderJsonObj fs

end

/-- A content item of an MCP result. -/
structure McpContent where
  type : String
  text : String
deriving Repr, DecidableEq

/-- An MCP tool result (`{content, isError?}`). -/
structure McpResult where
  content : List McpContent
  isError : Bool := false
deriving Repr, DecidableEq

/-- A success result with one text block. -/
def textResult (t : String) : McpResult :=
  { content := [{ type := "text", text := t }] }

/-- An error result with one text block (`isError: true`). -/
def errorResult (t : String) : McpResult :=
  { content := [{ type := "text", text := t }], isError := true }

/-- A thrown exception inside the handler body: a `ZodError` carrying
its issue messages, or a plain `Error` with a message. -/
inductive HErr where
  | zod : List String → HErr
  | err : String → HErr

/-- JSON encoding of the claim-relevant analyzer output. -/
def analysisToJson (a : QueryAnalysisCore) : Json :=
  Json.obj
    [("ctes", Json.arr (a.ctes.map (fun c => Json.obj
        [("name", Json.str c.name), ("sql", Json.str c.sql),
         ("tables", Json.arr (c.tables.map Json.str))]))),
     ("union_structure", Json.bool a.union_structure),
     ("structure", Json.str a.structureTag)]

/-- Is this character in `[a-z0-9]`? -/
def isLowerAlnum (c : Char) : Bool := (c ≥ 'a' && c ≤ 'z') || c.isDigit

/-- `replace(/[^a-z0-9]+/g, "_")` on a lower-cased name. -/
def collapseNonAlnum : List Char → List Char
  | [] => []
  | [c] => [if isLowerAlnum c then c else '_']
  | c :: d :: cs =>
      if !isLowerAlnum c && !isLowerAlnum d then collapseNonAlnum (d :: cs)
      else (if isLowerAlnum c then c else '_') :: collapseNonAlnum (d :: cs)

/-- `replace(/^_|_$/g, "")`: strip one leading and one trailing
underscore. -/
def stripEdgeUnderscores (cs : List Char) : List Char :=
  let cs1 := match cs with | '_' :: r => r | _ => cs
  match cs1.reverse with | '_' :: r => r.reverse | _ => cs1

/-- The `patternName` derivation of `generate_rules_from_redash`:
`q.name.toLowerCase().replace(/[^a-z0-9]+/g, "_").replace(/^_|_$/g, "")`. -/
def sanitizePatternName (name : String) : String :=
  String.mk (stripEdgeUnderscores (collapseNonAlnum (toLowerStr name).data))

/-- The `information_schema` statement of `list_tables`. -/
def listTablesSql : String :=
  "SELECT table_name, table_type FROM information_schema.tables WHERE table_schema = $1 ORDER BY table_name"

/-- The `information_schema` statement of `describe_table`. -/
def describeTableSql : String :=
  "SELECT c.column_name, c.data_type, c.character_maximum_length, c.is_nullable, c.column_default, tc.constraint_type FROM information_schema.columns c LEFT JOIN information_schema.key_column_usage kcu ON c.table_schema = kcu.table_schema AND c.table_name = kcu.table_name AND c.column_name = kcu.column_name LEFT JOIN information_schema.table_constraints tc ON kcu.constraint_name = tc.constraint_name AND kcu.table_schema = tc.table_schema WHERE c.table_schema = $1 AND c.table_name = $2 ORDER BY c.ordinal_position"

/-- The `information_schema` statement of `list_schemas`. -/
def listSchemasSql : String :=
  "SELECT schema_name FROM information_schema.schemata WHERE schema_name NOT IN ('pg_catalog', 'information_schema', 'pg_toast') ORDER BY schema_name"

/-- The error thrown by the `RedashClient` constructor when no API key
is configured. -/
def redashKeyRequired : String :=
  "Redash API key is required. Set REDASH_API_KEY env var or pass it to the constructor."

/-- JSON output row of `fetch_redash_query` for one fetch result. -/
def renderFetchOutput (r : RedashFetchResult) : Json :=
  if !r.success || r.query?.isNone then
    Json.obj [("id", Json.num r.id), ("success", Json.bool false),
              ("error", Json.str (r.error?.getD ""))]
  else
    let q := r.query?.getD { id := r.id, name := "", description := "", query := "" }
    Json.obj [("id", Json.num q.id), ("success", Json.bool true),
              ("name", Json.str q.name), ("description", Json.str q.description),
              ("sql", Json.str q.query)]

/-- JSON output row of `generate_rules_from_redash` for one fetch
result. -/
def renderGenerateFromRedash (env : ToolEnv) (category : String)
    (keywords : Option (List String)) (r : RedashFetchResult) : Json :=
  if !r.success || r.query?.isNone then
    Json.obj [("id", Json.num r.id), ("success", Json.bool false),
              ("error", Json.str (r.error?.getD ""))]
  else
    let q := r.query?.getD { id := r.id, name := "", description := "", query := "" }
    let patternName := sanitizePatternName q.name
    Json.obj [("id", Json.num q.id), ("success", Json.bool true),
              ("redash_name", Json.str q.name),
              ("pattern_name", Json.str patternName),
              ("generated", env.generateRulesOut q.query patternName
                (jsOr (some q.description) q.name) category keywords)]

/-- The names `handleToolCall` dispatches on. -/
def knownToolNames : List String :=
  ["query", "list_tables", "describe_table", "list_schemas",
   "get_sales_funnel_context", "classify_sales_intent", "get_query_template",
   "list_query_patterns", "analyze_query", "generate_rules",
   "fetch_redash_query", "generate_rules_from_redash"]

/-- The body of `handleToolCall`'s `try` block after the ACL gate
(`src/tools.ts`, lines 328–541): dispatch on the tool name, parse with
the zod schema (a failure throws `HErr.zod`), run the handler body (a
thrown error is `HErr.err`), ending with `throw new Error("Unknown
tool")`. -/
def handleToolCallCore (env : ToolEnv) (name : String)
    (args : Option (List (String × Json))) :
    Except HErr (McpResult × DbState) :=
  if name == "query" then
    match parseQueryInput args with
    | .error es => .error (.zod es)
    | .ok (sql, params) =>
        match executeReadOnlyQuery env.db sql params with
        | (.ok res, db2) =>
            .ok (textResult (renderJson (Json.obj
              [("rowCount", Json.num (Int.ofNat res.rowCount)),
               ("rows", res.rows)])), db2)
        | (.error e, _) => .error (.err e)
  else if name == "list_tables" then
    match parseListTablesInput args with
    | .error es => .error (.zod es)
    | .ok schema =>
        match executeReadOnlyQuery env.db listTablesSql (some [Json.str schema]) with
        | (.ok res, db2) => .ok (textResult (renderJson res.rows), db2)
        | (.error e, _) => .error (.err e)
  else if name == "describe_table" then
    match parseDescribeTableInput args with
    | .error es => .error (.zod es)
    | .ok (tableName, schema) =>
        match executeReadOnlyQuery env.db describeTableSql
            (some [Json.str schema, Json.str tableName]) with
        | (.ok res, db2) => .ok (textResult (renderJson res.rows), db2)
        | (.error e, _) => .error (.err e)
  else if name == "list_schemas" then
    match executeReadOnlyQuery env.db listSchemasSql none with
    | (.ok res, db2) => .ok (textResult (renderJson res.rows), db2)
    | (.error e, _) => .error (.err e)
  else if name == "get_sales_funnel_context" then
    .ok (textResult (renderJson env.salesFunnelContext), env.db)
  else if name == "classify_sales_intent" then
    match parseClassifyIntentInput args with
    | .error es => .error (.zod es)
    | .ok question =>
        .ok (textResult (renderJson (env.classifyIntent question)), env.db)
  else if name == "get_query_template" then
    match parseGetQueryTemplateInput args with
    | .error es => .error (.zod es)
    | .ok patternName =>
        match env.getQueryTemplate patternName with
        | none =>
            .ok (errorResult ("Unknown pattern: \x22" ++ patternName ++
              "\x22. Use list_query_patterns to see available patterns."), env.db)
        | some template => .ok (textResult (renderJson template), env.db)
  else if name == "list_query_patterns" then
    .ok (textResult (renderJson env.queryPatterns), env.db)
  else if name == "analyze_query" then
    match parseAnalyzeQueryInput args with
    | .error es => .error (.zod es)
    | .ok sql =>
        .ok (textResult (renderJson (analysisToJson (analyzeQuery sql))), env.db)
  else if name == "generate_rules" then
    match parseGenerateRulesInput args with
    | .error es => .error (.zod es)
    | .ok (sql, patternName, description, category, keywords) =>
        .ok (textResult (renderJson
          (env.generateRulesOut sql patternName description category keywords)),
          env.db)
  else if name == "fetch_redash_query" then
    match parseFetchRedashInput args with
    | .error es => .error (.zod es)
    | .ok queryIds =>
        match parseQueryIds queryIds with
        | .error m => .error (.err m)
        | .ok ids =>
            if env.redashApiKey == "" then .error (.err redashKeyRequired)
            else
              .ok (textResult (renderJson
                (Json.arr ((ids.map env.fetchQuery).map renderFetchOutput))),
                env.db)
  else if name == "generate_rules_from_redash" then
    match parseGenerateFromRedashInput args with
    | .error es => .error (.zod es)
    | .ok (queryIds, category, keywords) =>
        match parseQueryIds queryIds with
        | .error m => .error (.err m)
        | .ok ids =>
            if env.redashApiKey == "" then .error (.err redashKeyRequired)
            else
              .ok (textResult (renderJson
                (Json.arr ((ids.map env.fetchQuery).map
                  (renderGenerateFromRedash env category keywords)))), env.db)
  else .error (.err ("Unknown tool: " ++ name))

/-- `handleToolCall` from `src/tools.ts` (lines 308–560): the ACL gate,
then the dispatch, with every thrown exception captured as an
`isError: true` text result — `ZodError`s as `Validation error: <joined
messages>`, anything else as `Error: <message>`.  Returns the result
and the database state after the call. -/
def handleToolCall (env : ToolEnv) (name : String)
    (args : Option (List (String × Json))) (userEmail : Option String) :
    McpResult × DbState :=
  let aclResult := checkToolAccess env.cfg env.staffDir name userEmail
  if !aclResult.allowed then
    (errorResult ("Access denied: " ++ aclResult.reason), env.db)
  else
    match handleToolCallCore env name args with
    | .ok r => r
    | .error (.zod es) =>
        (errorResult ("Validation error: " ++ String.intercalate ", " es), env.db)
    | .error (.err m) => (errorResult ("Error: " ++ m), env.db)

/-- The zod issues of a tool's input parse, `none` when the parse
succeeds or the tool has no schema. -/
def zodErrors {α : Type} : Except (List String) α → Option (List String)
  | .error es => some es
  | .ok _ => none

/-- The schema validation outcome per tool, mirroring the dispatch. -/
def validateArgs (name : String) (args : Option (List (String × Json))) :
    Option (List String) :=
  if name == "query" then zodErrors (parseQueryInput args)
  else if name == "list_tables" then zodErrors (parseListTablesInput args)
  else if name == "describe_table" then zodErrors (parseDescribeTableInput args)
  else if name == "list_schemas" then none
  else if name == "get_sales_funnel_context" then none
  else if name == "classify_sales_intent" then
    zodErrors (parseClassifyIntentInput args)
  else if name == "get_query_template" then
    zodErrors (parseGetQueryTemplateInput args)
  else if name == "list_query_patterns" then none
  else if name == "analyze_query" then zodErrors (parseAnalyzeQueryInput args)
  else if name == "generate_rules" then zodErrors (parseGenerateRulesInput args)
  else if name == "fetch_redash_query" then zodErrors (parseFetchRedashInput args)
  else if name == "generate_rules_from_redash" then
    zodErrors (parseGenerateFromRedashInput args)
  else none

theorem execStmt_readOnly_preserves (db : DbState) (sql : String)
    (res : QueryRes) (db2 : DbState)
    (h : execStmt true db sql = .ok (res, db2)) : db2 = db := by
  unfold execStmt at h
  dsimp only at h
  split at h
  · simp at h
  · split at h
    · exact ((Prod.ext_iff.mp (Except.ok.inj h)).2).symm
    · simp at h

theorem executeReadOnlyQuery_preserves (db : DbState) (sql : String)
    (params : Option (List Json)) :
    (executeReadOnlyQuery db sql params).2 = db := by
  unfold executeReadOnlyQuery
  cases hx : execStmt true db sql with
  | ok r => exact execStmt_readOnly_preserves db sql r.1 r.2 (by rw [hx])
  | error e => rfl

theorem handleToolCallCore_ok_shape (env : ToolEnv) (name : String)
    (args : Option (List (String × Json))) (r : McpResult × DbState)
    (h : handleToolCallCore env name args = .ok r) :
    (∃ t, r.1.content = [{ type := "text", text := t }]) ∧ r.2 = env.db := by
  unfold handleToolCallCore at h
  by_cases hn1 : name = "query"
  · rw [if_pos (by simp [hn1])] at h
    repeat' split at h
    all_goals
      first
      | exact Except.noConfusion h
      | (injection h with h2
         subst h2
         refine ⟨⟨_, rfl⟩, ?_⟩
         first
         | rfl
         | (rename_i heq
            exact (congrArg Prod.snd heq).symm.trans
              (executeReadOnlyQuery_preserves _ _ _)))
  · rw [if_neg (by simp [hn1])] at h
    by_cases hn2 : name = "list_tables"
    · rw [if_pos (by simp [hn2])] at h
      repeat' split at h
      all_goals
        first
        | exact Except.noConfusion h
        | (injection h with h2
           subst h2
           refine ⟨⟨_, rfl⟩, ?_⟩
           first
           | rfl
           | (rename_i heq
              exact (congrArg Prod.snd heq).symm.trans
                (executeReadOnlyQuery_preserves _ _ _)))
    · rw [if_neg (by simp [hn2])] at h
      by_cases hn3 : name = "describe_table"
      · rw [if_pos (by simp [hn3])] at h
        repeat' split at h
        all_goals
          first
          | exact Except.noConfusion h
          | (injection h with h2
             subst h2
             refine ⟨⟨_, rfl⟩, ?_⟩
             first
             | rfl
             | (rename_i heq
                exact (congrArg Prod.snd heq).symm.trans
                  (executeReadOnlyQuery_preserves _ _ _)))
      · rw [if_neg (by simp [hn3])] at h
        by_cases hn4 : name = "list_schemas"
        · rw [if_pos (by simp [hn4])] at h
          repeat' split at h
          all_goals
            first
            | exact Except.noConfusion h
            | (injection h with h2
               subst h2
               refine ⟨⟨_, rfl⟩, ?_⟩
               first
               | rfl
               | (rename_i heq
                  exact (congrArg Prod.snd heq).symm.trans
                    (executeReadOnlyQuery_preserves _ _ _)))
        · rw [if_neg (by simp [hn4])] at h
          by_cases hn5 : name = "get_sales_funnel_context"
          · rw [if_pos (by simp [hn5])] at h
            repeat' split at h
            all_goals
              first
              | exact Except.noConfusion h
              | (injection h with h2
                 subst h2
                 refine ⟨⟨_, rfl⟩, ?_⟩
                 first
                 | rfl
                 | (rename_i heq
                    exact (congrArg Prod.snd heq).symm.trans
                      (executeReadOnlyQuery_preserves _ _ _)))
          · rw [if_neg (by simp [hn5])] at h
            by_cases hn6 : name = "classify_sales_intent"
            · rw [if_pos (by simp [hn6])] at h
              repeat' split at h
              all_goals
                first
                | exact Except.noConfusion h
                | (injection h with h2
                   subst h2
                   refine ⟨⟨_, rfl⟩, ?_⟩
                   first
                   | rfl
                   | (rename_i heq
                      exact (congrArg Prod.snd heq).symm.trans
                        (executeReadOnlyQuery_preserves _ _ _)))
            · rw [if_neg (by simp [hn6])] at h
              by_cases hn7 : name = "get_query_template"
              · rw [if_pos (by simp [hn7])] at h
                repeat' split at h
                all_goals
                  first
                  | exact Except.noConfusion h
                  | (injection h with h2
                     subst h2
                     refine ⟨⟨_, rfl⟩, ?_⟩
                     first
                     | rfl
                     | (rename_i heq
                        exact (congrArg Prod.snd heq).symm.trans
                          (executeReadOnlyQuery_preserves _ _ _)))
              · rw [if_neg (by simp [hn7])] at h
                by_cases hn8 : name = "list_query_patterns"
                · rw [if_pos (by simp [hn8])] at h
                  repeat' split at h
                  all_goals
                    first
                    | exact Except.noConfusion h
                    | (injection h with h2
                       subst h2
                       refine ⟨⟨_, rfl⟩, ?_⟩
                       first
                       | rfl
                       | (rename_i heq
                          exact (congrArg Prod.snd heq).symm.trans
                            (executeReadOnlyQuery_preserves _ _ _)))
                · rw [if_neg (by simp [hn8])] at h
                  by_cases hn9 : name = "analyze_query"
                  · rw [if_pos (by simp [hn9])] at h
                    repeat' split at h
                    all_goals
                      first
                      | exact Except.noConfusion h
                      | (injection h with h2
                         subst h2
                         refine ⟨⟨_, rfl⟩, ?_⟩
                         first
                         | rfl
                         | (rename_i heq
                            exact (congrArg Prod.snd heq).symm.trans
                              (executeReadOnlyQuery_preserves _ _ _)))
                  · rw [if_neg (by simp [hn9])] at h
                    by_cases hn10 : name = "generate_rules"
                    · rw [if_pos (by simp [hn10])] at h
                      repeat' split at h
                      all_goals
                        first
                        | exact Except.noConfusion h
                        | (injection h with h2
                           subst h2
                           refine ⟨⟨_, rfl⟩, ?_⟩
                           first
                           | rfl
                           | (rename_i heq
                              exact (congrArg Prod.snd heq).symm.trans
                                (executeReadOnlyQuery_preserves _ _ _)))
                    · rw [if_neg (by simp [hn10])] at h
                      by_cases hn11 : name = "fetch_redash_query"
                      · rw [if_pos (by simp [hn11])] at h
                        repeat' split at h
                        all_goals
                          first
                          | exact Except.noConfusion h
                          | (injection h with h2
                             subst h2
                             refine ⟨⟨_, rfl⟩, ?_⟩
                             first
                             | rfl
                             | (rename_i heq
                                exact (congrArg Prod.snd heq).symm.trans
                                  (executeReadOnlyQuery_preserves _ _ _)))
                      · rw [if_neg (by simp [hn11])] at h
                        by_cases hn12 : name = "generate_rules_from_redash"
                        · rw [if_pos (by simp [hn12])] at h
                          repeat' split at h
                          all_goals
                            first
                            | exact Except.noConfusion h
                            | (injection h with h2
                               subst h2
                               refine ⟨⟨_, rfl⟩, ?_⟩
                               first
                               | rfl
                               | (rename_i heq
                                  exact (congrArg Prod.snd heq).symm.trans
                                    (executeReadOnlyQuery_preserves _ _ _)))
                        · rw [if_neg (by simp [hn12])] at h
                          exact Except.noConfusion h

theorem handleToolCallCore_zod (env : ToolEnv) (name : String)
    (args : Option (List (String × Json))) (es : List String)
    (h : validateArgs name args = some es) :
    handleToolCallCore env name args = .error (.zod es) := by
  unfold validateArgs at h
  unfold handleToolCallCore
  by_cases hn1 : name = "query"
  · rw [if_pos (by simp [hn1])] at h
    rw [if_pos (by simp [hn1])]
    cases hp : parseQueryInput args with
    | error es2 =>
        rw [hp] at h
        simp only [zodErrors, Option.some.injEq] at h
        rw [h]
    | ok v =>
        rw [hp] at h
        exact Option.noConfusion h
  · rw [if_neg (by simp [hn1])] at h
    rw [if_neg (by simp [hn1])]
    by_cases hn2 : name = "list_tables"
    · rw [if_pos (by simp [hn2])] at h
      rw [if_pos (by simp [hn2])]
      cases hp : parseListTablesInput args with
      | error es2 =>
          rw [hp] at h
          simp only [zodErrors, Option.some.injEq] at h
          rw [h]
      | ok v =>
          rw [hp] at h
          exact Option.noConfusion h
    · rw [if_neg (by simp [hn2])] at h
      rw [if_neg (by simp [hn2])]
      by_cases hn3 : name = "describe_table"
      · rw [if_pos (by simp [hn3])] at h
        rw [if_pos (by simp [hn3])]
        cases hp : parseDescribeTableInput args with
        | error es2 =>
            rw [hp] at h
            simp only [zodErrors, Option.some.injEq] at h
            rw [h]
        | ok v =>
            rw [hp] at h
            exact Option.noConfusion h
      · rw [if_neg (by simp [hn3])] at h
        rw [if_neg (by simp [hn3])]
        by_cases hn4 : name = "list_schemas"
        · rw [if_pos (by simp [hn4])] at h
          exact Option.noConfusion h
        · rw [if_neg (by simp [hn4])] at h
          rw [if_neg (by simp [hn4])]
          by_cases hn5 : name = "get_sales_funnel_context"
          · rw [if_pos (by simp [hn5])] at h
            exact Option.noConfusion h
          · rw [if_neg (by simp [hn5])] at h
            rw [if_neg (by simp [hn5])]
            by_cases hn6 : name = "classify_sales_intent"
            · rw [if_pos (by simp [hn6])] at h
              rw [if_pos (by simp [hn6])]
              cases hp : parseClassifyIntentInput args with
              | error es2 =>
                  rw [hp] at h
                  simp only [zodErrors, Option.some.injEq] at h
                  rw [h]
              | ok v =>
                  rw [hp] at h
                  exact Option.noConfusion h
            · rw [if_neg (by simp [hn6])] at h
              rw [if_neg (by simp [hn6])]
              by_cases hn7 : name = "get_query_template"
              · rw [if_pos (by simp [hn7])] at h
                rw [if_pos (by simp [hn7])]
                cases hp : parseGetQueryTemplateInput args with
                | error es2 =>
                    rw [hp] at h
                    simp only [zodErrors, Option.some.injEq] at h
                    rw [h]
                | ok v =>
                    rw [hp] at h
                    exact Option.noConfusion h
              · rw [if_neg (by simp [hn7])] at h
                rw [if_neg (by simp [hn7])]
                by_cases hn8 : name = "list_query_patterns"
                · rw [if_pos (by simp [hn8])] at h
                  exact Option.noConfusion h
                · rw [if_neg (by simp [hn8])] at h
                  rw [if_neg (by simp [hn8])]
                  by_cases hn9 : name = "analyze_query"
                  · rw [if_pos (by simp [hn9])] at h
                    rw [if_pos (by simp [hn9])]
                    cases hp : parseAnalyzeQueryInput args with
                    | error es2 =>
                        rw [hp] at h
                        simp only [zodErrors, Option.some.injEq] at h
                        rw [h]
                    | ok v =>
                        rw [hp] at h
                        exact Option.noConfusion h
                  · rw [if_neg (by simp [hn9])] at h
                    rw [if_neg (by simp [hn9])]
                    by_cases hn10 : name = "generate_rules"
                    · rw [if_pos (by simp [hn10])] at h
                      rw [if_pos (by simp [hn10])]
                      cases hp : parseGenerateRulesInput args with
                      | error es2 =>
                          rw [hp] at h
                          simp only [zodErrors, Option.some.injEq] at h
                          rw [h]
                      | ok v =>
                          rw [hp] at h
                          exact Option.noConfusion h
                    · rw [if_neg (by simp [hn10])] at h
                      rw [if_neg (by simp [hn10])]
                      by_cases hn11 : name = "fetch_redash_query"
                      · rw [if_pos (by simp [hn11])] at h
                        rw [if_pos (by simp [hn11])]
                        cases hp : parseFetchRedashInput args with
                        | error es2 =>
                            rw [hp] at h
                            simp only [zodErrors, Option.some.injEq] at h
                            rw [h]
                        | ok v =>
                            rw [hp] at h
                            exact Option.noConfusion h
                      · rw [if_neg (by simp [hn11])] at h
                        rw [if_neg (by simp [hn11])]
                        by_cases hn12 : name = "generate_rules_from_redash"
                        · rw [if_pos (by simp [hn12])] at h
                          rw [if_pos (by simp [hn12])]
                          cases hp : parseGenerateFromRedashInput args with
                          | error es2 =>
                              rw [hp] at h
                              simp only [zodErrors, Option.some.injEq] at h
                              rw [h]
                          | ok v =>
                              rw [hp] at h
                              exact Option.noConfusion h
                        · rw [if_neg (by simp [hn12])] at h
                          rw [if_neg (by simp [hn12])]
                          exact Option.noConfusion h

theorem handleToolCallCore_unknown (env : ToolEnv) (name : String)
    (args : Option (List (String × Json))) (hname : name ∉ knownToolNames) :
    handleToolCallCore env name args = .error (.err ("Unknown tool: " ++ name)) := by
  simp only [knownToolNames, List.mem_cons, List.not_mem_nil, or_false,
    not_or] at hname
  obtain ⟨h1, h2, h3, h4, h5, h6, h7, h8, h9, h10, h11, h12⟩ := hname
  unfold handleToolCallCore
  rw [if_neg (by simp [h1]), if_neg (by simp [h2]), if_neg (by simp [h3]), if_neg (by simp [h4]), if_neg (by simp [h5]), if_neg (by simp [h6]), if_neg (by simp [h7]), if_neg (by simp [h8]), if_neg (by simp [h9]), if_neg (by simp [h10]), if_neg (by simp [h11]), if_neg (by simp [h12])]

/-- C4: `handleToolCall` is a total function — every call yields exactly
one text content block — and each failure mode yields `isError: true`
with its message: an access denial (`Access denied: <reason>`), a schema
validation failure (`Validation error: ` followed by the comma-joined
field messages), an unknown tool name (`Error: Unknown tool: <name>`),
and a handler-body error such as a failing query
(`Error: <message>`). -/
theorem handleToolCall_gate :
    ∀ (env : ToolEnv) (name : String) (args : Option (List (String × Json)))
      (userEmail : Option String),
    (∃ t, (handleToolCall env name args userEmail).1.content =
      [{ type := "text", text := t }]) ∧
    ((checkToolAccess env.cfg env.staffDir name userEmail).allowed = false →
      handleToolCall env name args userEmail =
        (errorResult ("Access denied: " ++
          (checkToolAccess env.cfg env.staffDir name userEmail).reason), env.db)) ∧
    ((checkToolAccess env.cfg env.staffDir name userEmail).allowed = true →
      ∀ es, validateArgs name args = some es →
      handleToolCall env name args userEmail =
        (errorResult ("Validation error: " ++ String.intercalate ", " es),
          env.db)) ∧
    ((checkToolAccess env.cfg env.staffDir name userEmail).allowed = true →
      name ∉ knownToolNames →
      handleToolCall env name args userEmail =
        (errorResult ("Error: Unknown tool: " ++ name), env.db)) ∧
    ((checkToolAccess env.cfg env.staffDir name userEmail).allowed = true →
      name = "query" →
      ∀ sql params, parseQueryInput args = .ok (sql, params) →
      ∀ m, execStmt true env.db sql = .error m →
      handleToolCall env name args userEmail =
        (errorResult ("Error: " ++ m), env.db)) := by
  intro env name args userEmail
  refine ⟨?_, ?_, ?_, ?_, ?_⟩
  · unfold handleToolCall
    cases hallow : (checkToolAccess env.cfg env.staffDir name userEmail).allowed
    · simp [hallow, errorResult]
    · simp only [hallow, Bool.not_true, Bool.false_eq_true, if_false]
      cases hcore : handleToolCallCore env name args with
      | ok r =>
          exact (handleToolCallCore_ok_shape env name args r hcore).1
      | error e => cases e <;> simp [errorResult]
  · intro hallow
    unfold handleToolCall
    simp [hallow]
  · intro hallow es hval
    unfold handleToolCall
    simp [hallow, handleToolCallCore_zod env name args es hval]
  · intro hallow hname
    unfold handleToolCall
    simp [hallow, handleToolCallCore_unknown env name args hname]
    rw [← String.append_assoc]
    rfl
  · intro hallow hname sql params hparse m hexec
    subst hname
    unfold handleToolCall
    have hcore : handleToolCallCore env "query" args = .error (.err m) := by
      unfold handleToolCallCore
      rw [if_pos (by rfl)]
      rw [hparse]
      dsimp only
      rw [show executeReadOnlyQuery env.db sql params = (.error m, env.db) from by
        unfold executeReadOnlyQuery
        rw [hexec]]
    simp [hallow, hcore]

/-- C3: the tool layer never changes the database state — every SQL
statement it issues runs through `executeReadOnlyQuery`, whose
engine-level `READ ONLY` transaction commits reads and rolls back
errors; a mutating statement yields an error result with the state
unchanged; and in particular a `query` call with `DELETE FROM t` by an
allowed caller returns `isError: true` with the engine's read-only
error and an unchanged database. -/
theorem toolLayer_read_only :
    (∀ (env : ToolEnv) (name : String) (args : Option (List (String × Json)))
        (userEmail : Option String),
      (handleToolCall env name args userEmail).2 = env.db) ∧
    (∀ (db : DbState) (sql : String) (params : Option (List Json)),
      mutatingKeywords.contains (firstWordUpper sql) = true →
      executeReadOnlyQuery db sql params =
        (.error ("cannot execute " ++ firstWordUpper sql ++
          " in a read-only transaction"), db)) ∧
    (∀ (env : ToolEnv) (userEmail : Option String),
      (checkToolAccess env.cfg env.staffDir "query" userEmail).allowed = true →
      handleToolCall env "query" (some [("sql", Json.str "DELETE FROM t")])
          userEmail =
        (errorResult "Error: cannot execute DELETE in a read-only transaction",
          env.db)) := by
  refine ⟨?_, ?_, ?_⟩
  · intro env name args userEmail
    unfold handleToolCall
    cases hallow : (checkToolAccess env.cfg env.staffDir name userEmail).allowed
    · simp [hallow]
    · simp only [hallow, Bool.not_true, Bool.false_eq_true, if_false]
      cases hcore : handleToolCallCore env name args with
      | ok r => exact (handleToolCallCore_ok_shape env name args r hcore).2
      | error e => cases e <;> simp
  · intro db sql params hmut
    have hstmt : execStmt true db sql =
        .error ("cannot execute " ++ firstWordUpper sql ++
          " in a read-only transaction") := by
      unfold execStmt
      simp [hmut]
      intro hc
      exact absurd (by simpa using hmut) hc
    unfold executeReadOnlyQuery
    rw [hstmt]
  · intro env userEmail hallow
    unfold handleToolCall
    have hcore : handleToolCallCore env "query"
        (some [("sql", Json.str "DELETE FROM t")]) =
        .error (.err "cannot execute DELETE in a read-only transaction") := rfl
    simp [hallow, hcore]

/-- A concrete tool environment: `query` public, staff directory empty,
one table with three rows, Redash offline. -/
def sampleEnv : ToolEnv :=
  { cfg := { default_policy := "deny", superuser_acls := [],
             public_tools := ["query"], tool_acls := [] },
    staffDir := fun _ => none,
    db := { tables := [("t", 3)] },
    salesFunnelContext := Json.null,
    classifyIntent := fun _ => Json.null,
    getQueryTemplate := fun _ => none,
    queryPatterns := Json.null,
    generateRulesOut := fun _ _ _ _ _ => Json.null,
    redashApiKey := "",
    fetchQuery := fun i =>
      { id := i, success := false, query? := none, error? := some "offline" } }

/-- Witness for C3 at the concrete environment: an allowed `DELETE`
through the `query` tool errors and leaves the database unchanged, and
`executeReadOnlyQuery` refuses the mutating statement directly. -/
theorem toolLayer_read_only_witness :
    handleToolCall sampleEnv "query" (some [("sql", Json.str "DELETE FROM t")])
        none =
      (errorResult "Error: cannot execute DELETE in a read-only transaction",
        sampleEnv.db) ∧
    executeReadOnlyQuery sampleEnv.db "DELETE FROM t" none =
      (.error "cannot execute DELETE in a read-only transaction",
        sampleEnv.db) :=
  ⟨toolLayer_read_only.2.2 sampleEnv none (by decide),
   toolLayer_read_only.2.1 sampleEnv.db "DELETE FROM t" none (by decide)⟩

/-- A second environment where the unknown tool name `nope` is public
(so the dispatch, not the ACL, produces its error). -/
def sampleEnvOpen : ToolEnv :=
  { sampleEnv with
    cfg := { default_policy := "deny", superuser_acls := [],
             public_tools := ["query", "nope"], tool_acls := [] } }

/-- Witness for C4 at concrete inputs: a denial, a validation failure,
an unknown tool, and a handler-body error each produce the claimed
`isError` result. -/
theorem handleToolCall_gate_witness :
    handleToolCall sampleEnv "list_tables" none none =
      (errorResult ("Access denied: " ++ authRequiredReason), sampleEnv.db) ∧
    handleToolCall sampleEnv "query" none none =
      (errorResult "Validation error: Required", sampleEnv.db) ∧
    handleToolCall sampleEnvOpen "nope" none none =
      (errorResult "Error: Unknown tool: nope", sampleEnvOpen.db) ∧
    handleToolCall sampleEnv "query" (some [("sql", Json.str "DELETE FROM t")])
        none =
      (errorResult "Error: cannot execute DELETE in a read-only transaction",
        sampleEnv.db) :=
  ⟨(handleToolCall_gate sampleEnv "list_tables" none none).2.1 (by decide),
   (handleToolCall_gate sampleEnv "query" none none).2.2.1 (by decide)
     ["Required"] (by decide),
   (handleToolCall_gate sampleEnvOpen "nope" none none).2.2.2.1 (by decide)
     (by decide),
   (handleToolCall_gate sampleEnv "query"
       (some [("sql", Json.str "DELETE FROM t")]) none).2.2.2.2 (by decide) rfl
     "DELETE FROM t" none rfl
     "cannot execute DELETE in a read-only transaction" rfl⟩

end LohonoDb
